import Mathlib

/-!
Verification of the PCEBG guillotine cutting solver (`src/trab.py`).

The Python source is shallowly embedded below.  Machine integers are `ℕ`,
the floating-point utilization values are modelled by `ℚ`, and Python's
`raise ValueError` is modelled by `Except Unit`.  The three sources of
randomness of the script (`random.choice` inside the strip builder,
`random.shuffle` and `random.uniform` in the driver) are externalized as
parameters: a stream `rng : ℕ → ℕ` consumed one value per `random.choice`
call (the choice from a list `l` picks index `rng k % l.length`), a
per-iteration permutation `shuffle : ℕ → List Item → List Item`, and a
per-iteration sample `alphas : ℕ → ℚ`.  All theorems quantify over these,
so they cover every random sequence of the original program.

The `while` loops of the source are written with an explicit fuel argument
chosen large enough that the fuel never runs out (one unit of width per
placement for the strip builder, one unit of demand per strip / per plate
for the other two loops); fuel-stability theorems below (claim C8) show the
loops genuinely exit on their own conditions within that budget.
-/

deriving instance DecidableEq for Except

namespace PCEBG

/-- An item type (`class Item` of the source): identifier, width `c`,
height `l`, demand `d`. -/
structure Item where
  id : ℕ
  c : ℕ
  l : ℕ
  d : ℕ
deriving DecidableEq, Repr

/-- Derived area `largura * altura` of an item. -/
def Item.area (i : Item) : ℕ := i.c * i.l

/-- The per-trial demand state: a mapping from item identifier to the
remaining quantity (the Python dict `demanda`). -/
abbrev Demanda : Type := ℕ → ℕ

/-- Pointwise update of a demand mapping (`demanda[item.id] -= qtd` etc.). -/
def updDemanda (dem : Demanda) (id q : ℕ) : Demanda :=
  fun j => if j = id then q else dem j

/-- `demanda = {i.id: i.d for i in itens}`: later entries overwrite earlier
ones, identifiers not occurring in the list map to `0`. -/
def demandaInicial (itens : List Item) : Demanda :=
  itens.foldl (fun dem i => updDemanda dem i.id i.d) (fun _ => 0)

/-- One run inside a strip: the tuple `(item, qtd, x_usado)` appended by
`criar_faixa`. -/
abbrev Faixa : Type := List (Item × ℕ × ℕ)

/-- One placement of a plate: the tuple `(item, qtd, x, y)` appended by
`gerar_padrao`. -/
structure Colocacao where
  item : Item
  qtd : ℕ
  x : ℕ
  y : ℕ
deriving DecidableEq, Repr

/-- A plate (`padrao`): the list of its placements. -/
abbrev Padrao : Type := List Colocacao

/-- The list `viaveis` computed at each pass of the strip builder: items
with remaining demand that fit the remaining width and the height ceiling. -/
def viaveis (itens : List Item) (dem : Demanda) (C xUsado alturaRestante : ℕ) :
    List Item :=
  itens.filter fun i =>
    decide (0 < dem i.id ∧ i.c ≤ C - xUsado ∧ i.l ≤ alturaRestante)

/-- `beta = max(areas)` over a list of items (all areas are nonnegative, so
folding `max` from `0` agrees with Python's `max` on nonempty lists). -/
def maxArea (v : List Item) : ℕ := v.foldl (fun m i => max m i.area) 0

/-- The RCL membership test of the source: `i.area >= alpha * beta`. -/
def naLRC (alpha : ℚ) (beta area : ℕ) : Prop :=
  alpha * (beta : ℚ) ≤ (area : ℚ)

/-- Clearing the denominator of a rational. -/
theorem q_mul_den (q : ℚ) : q * (q.den : ℚ) = (q.num : ℚ) := by
  have h := Rat.num_div_den q
  nth_rewrite 1 [← h]
  rw [div_mul_cancel₀]
  exact_mod_cast q.den_pos.ne'

/-- The RCL test is equivalent to an integer comparison (used for its
kernel-reducible decidability instance). -/
theorem naLRC_iff (alpha : ℚ) (beta area : ℕ) :
    alpha.num * (beta : ℤ) ≤ (alpha.den : ℤ) * (area : ℤ) ↔ naLRC alpha beta area := by
  unfold naLRC
  have hd : (0 : ℚ) < (alpha.den : ℚ) := by exact_mod_cast alpha.den_pos
  rw [← mul_le_mul_right hd]
  have h1 : alpha * (beta : ℚ) * (alpha.den : ℚ) = (alpha.num : ℚ) * (beta : ℚ) := by
    rw [mul_right_comm, q_mul_den]
  rw [h1]
  constructor
  · intro h
    have h' : (alpha.num : ℚ) * (beta : ℚ) ≤ (alpha.den : ℚ) * (area : ℚ) := by
      exact_mod_cast h
    linarith [h']
  · intro h
    have h' : (alpha.num : ℚ) * (beta : ℚ) ≤ (alpha.den : ℚ) * (area : ℚ) := by
      linarith [h]
    exact_mod_cast h'

instance (alpha : ℚ) (beta area : ℕ) : Decidable (naLRC alpha beta area) :=
  decidable_of_iff _ (naLRC_iff alpha beta area)

/-- The restricted candidate list: `[i for i in viaveis if i.area >= alpha * beta]`. -/
def lrc (v : List Item) (alpha : ℚ) : List Item :=
  v.filter fun i => decide (naLRC alpha (maxArea v) i.area)

/-- `random.choice(l)` with the random index externalized: picks the element
at index `r % l.length` (`none` only on an empty list, where Python raises). -/
def escolher (l : List Item) (r : ℕ) : Option Item :=
  l.get? (r % l.length)

/-- The loop body of `criar_faixa`.  The fuel argument bounds the number of
loop iterations; every appended run consumes at least one unit of width, so
fuel `C - xUsado` suffices and the fuel-zero branch coincides with the
loop-exit branch on every reachable state (see `criar_faixa_fuel_estavel`).
The `escolher … = none` branch is unreachable for `alpha ≤ 1` (in Python an
empty RCL would raise).  Returns the strip together with the updated demand
state and the updated random-stream position. -/
def criar_faixa_go (itens : List Item) (C alturaRestante : ℕ) (alpha : ℚ)
    (rng : ℕ → ℕ) : ℕ → Demanda → ℕ → ℕ → Faixa × Demanda × ℕ
  | fuel, dem, k, xUsado =>
    if xUsado < C then
      match fuel with
      | 0 => ([], dem, k)
      | fuel + 1 =>
        let v := viaveis itens dem C xUsado alturaRestante
        if v = [] then ([], dem, k)
        else
          match escolher (lrc v alpha) (rng k) with
          | none => ([], dem, k)
          | some item =>
            let qtdMax := (C - xUsado) / item.c
            let qtd := min (dem item.id) qtdMax
            if qtd = 0 then ([], dem, k)
            else
              let dem' := updDemanda dem item.id (dem item.id - qtd)
              let r := criar_faixa_go itens C alturaRestante alpha rng fuel
                dem' (k + 1) (xUsado + qtd * item.c)
              ((item, qtd, xUsado) :: r.1, r.2)
    else ([], dem, k)

/-- `criar_faixa(itens, demanda, C, altura_restante, alpha)`: builds one
horizontal strip starting at `x_usado = 0`. -/
def criar_faixa (itens : List Item) (dem : Demanda) (C alturaRestante : ℕ)
    (alpha : ℚ) (rng : ℕ → ℕ) (k : ℕ) : Faixa × Demanda × ℕ :=
  criar_faixa_go itens C alturaRestante alpha rng C dem k 0

/-- `any(demanda[i.id] > 0 for i in itens)`. -/
def temDemanda (itens : List Item) (dem : Demanda) : Bool :=
  itens.any fun i => decide (0 < dem i.id)

/-- `h_faixa = max(item.l for item, _, _ in faixa)` (heights are
nonnegative, so folding `max` from `0` agrees with Python on nonempty
strips). -/
def alturaFaixa (faixa : Faixa) : ℕ :=
  faixa.foldl (fun m r => max m r.1.l) 0

/-- Total remaining demand of the items of the list; used as the fuel of the
plate- and solution-building loops (each nonempty strip/plate removes at
least one unit of demand). -/
def demSum (itens : List Item) (dem : Demanda) : ℕ :=
  (itens.map fun i => dem i.id).sum

/-- The loop body of `gerar_padrao`: stacks strips while `y < L` and demand
remains; stops when `criar_faixa` returns an empty strip. -/
def gerar_padrao_go (itens : List Item) (C L : ℕ) (alpha : ℚ)
    (rng : ℕ → ℕ) : ℕ → Demanda → ℕ → ℕ → Padrao × Demanda × ℕ
  | fuel, dem, k, y =>
    if y < L ∧ temDemanda itens dem = true then
      match fuel with
      | 0 => ([], dem, k)
      | fuel + 1 =>
        let r := criar_faixa itens dem C (L - y) alpha rng k
        if r.1 = [] then ([], r.2.1, r.2.2)
        else
          let hFaixa := alturaFaixa r.1
          let s := gerar_padrao_go itens C L alpha rng fuel r.2.1 r.2.2 (y + hFaixa)
          (r.1.map (fun t => ⟨t.1, t.2.1, t.2.2, y⟩) ++ s.1, s.2)
    else ([], dem, k)

/-- `gerar_padrao(itens, demanda, C, L, alpha)`: builds one plate starting
at `y = 0`. -/
def gerar_padrao (itens : List Item) (dem : Demanda) (C L : ℕ) (alpha : ℚ)
    (rng : ℕ → ℕ) (k : ℕ) : Padrao × Demanda × ℕ :=
  gerar_padrao_go itens C L alpha rng (demSum itens dem) dem k 0

/-- The inner `while any(demanda[i.id] > 0 …)` loop of one GRASP trial:
generates plates until the demand is exhausted, and raises
(`Except.error ()`, the `ValueError` of the source) when `gerar_padrao`
returns an empty plate while demand remains.  The fuel-zero-with-demand
branch also errors; it is unreachable from `gerar_placas` because every
appended plate removes at least one unit of demand. -/
def gerar_placas_go (itens : List Item) (C L : ℕ) (alpha : ℚ) (rng : ℕ → ℕ) :
    ℕ → Demanda → ℕ → List Padrao → Except Unit (List Padrao × ℕ)
  | fuel, dem, k, placas =>
    if temDemanda itens dem = true then
      match fuel with
      | 0 => Except.error ()
      | fuel + 1 =>
        let r := gerar_padrao itens dem C L alpha rng k
        if r.1 = [] then Except.error ()
        else gerar_placas_go itens C L alpha rng fuel r.2.1 r.2.2 (placas ++ [r.1])
    else Except.ok (placas, k)

/-- The plate-building loop of one trial, started from an empty plate list. -/
def gerar_placas (itens : List Item) (dem : Demanda) (C L : ℕ) (alpha : ℚ)
    (rng : ℕ → ℕ) (k : ℕ) : Except Unit (List Padrao × ℕ) :=
  gerar_placas_go itens C L alpha rng (demSum itens dem) dem k []

/-- `math.isclose(a, b)` with the default tolerances
(`rel_tol = 1e-9`, `abs_tol = 0.0`). -/
def isclose (a b : ℚ) : Prop :=
  |a - b| ≤ 1 / 1000000000 * max |a| |b|

/-- Multiplying an inequality against the relative tolerance through by a
positive factor. -/
theorem tolerancia_mul (x y z : ℚ) (hz : 0 < z) :
    x ≤ 1 / 1000000000 * y ↔ 1000000000 * (x * z) ≤ y * z := by
  rw [← mul_le_mul_right hz]
  constructor
  · intro h; nlinarith
  · intro h; nlinarith

/-- `isclose` is equivalent to an integer comparison (used for its
kernel-reducible decidability instance). -/
theorem isclose_iff (a b : ℚ) :
    1000000000 * |a.num * (b.den : ℤ) - b.num * (a.den : ℤ)| ≤
      max (|a.num| * (b.den : ℤ)) (|b.num| * (a.den : ℤ)) ↔ isclose a b := by
  unfold isclose
  have hda : (0 : ℚ) < (a.den : ℚ) := by exact_mod_cast a.den_pos
  have hdb : (0 : ℚ) < (b.den : ℚ) := by exact_mod_cast b.den_pos
  have hdd : (0 : ℚ) < (a.den : ℚ) * (b.den : ℚ) := mul_pos hda hdb
  have hsub : (a - b) * ((a.den : ℚ) * (b.den : ℚ)) =
      (a.num : ℚ) * (b.den : ℚ) - (b.num : ℚ) * (a.den : ℚ) := by
    linear_combination (b.den : ℚ) * q_mul_den a - (a.den : ℚ) * q_mul_den b
  have habs : |a - b| * ((a.den : ℚ) * (b.den : ℚ)) =
      |(a.num : ℚ) * (b.den : ℚ) - (b.num : ℚ) * (a.den : ℚ)| := by
    rw [← hsub, abs_mul, abs_of_pos hdd]
  have haa : |a| * (a.den : ℚ) = |(a.num : ℚ)| := by
    rw [← abs_of_pos hda, ← abs_mul, q_mul_den]
  have hbb : |b| * (b.den : ℚ) = |(b.num : ℚ)| := by
    rw [← abs_of_pos hdb, ← abs_mul, q_mul_den]
  have hmax : max |a| |b| * ((a.den : ℚ) * (b.den : ℚ)) =
      max (|(a.num : ℚ)| * (b.den : ℚ)) (|(b.num : ℚ)| * (a.den : ℚ)) := by
    rw [max_mul_of_nonneg _ _ (le_of_lt hdd)]
    congr 1
    · rw [show |a| * ((a.den : ℚ) * (b.den : ℚ)) = |a| * (a.den : ℚ) * (b.den : ℚ) by ring,
        haa]
    · rw [show |b| * ((a.den : ℚ) * (b.den : ℚ)) = |b| * (b.den : ℚ) * (a.den : ℚ) by ring,
        hbb]
  rw [tolerancia_mul _ _ _ hdd, habs, hmax]
  constructor
  · intro h
    exact_mod_cast h
  · intro h
    exact_mod_cast h

instance (a b : ℚ) : Decidable (isclose a b) :=
  decidable_of_iff _ (isclose_iff a b)

/-- The accumulator of the driver:
`(melhor_solucao, melhor_aproveitamento, melhor_num_placas)`, with
`melhor_num_placas : ℕ∞` so that the initial `math.inf` is `⊤`. -/
abbrev Melhor : Type := Option (List Padrao) × ℚ × ℕ∞

/-- `area_total_itens = sum(i.area * i.d for i in itens)`. -/
def area_total_itens (itens : List Item) : ℕ :=
  (itens.map fun i => i.area * i.d).sum

/-- The utilization of a trial:
`area_total_itens / area_placas if area_placas > 0 else 0.0`
(written with `Rat.divInt` so that it reduces in the kernel; see
`aproveitamentoDe_eq_div` for the division form). -/
def aproveitamentoDe (areaTotalItens C L nPlacas : ℕ) : ℚ :=
  if 0 < nPlacas * C * L then
    Rat.divInt (areaTotalItens : ℤ) ((nPlacas * C * L : ℕ) : ℤ)
  else 0

/-- `aproveitamentoDe` is the guarded division of the source. -/
theorem aproveitamentoDe_eq_div (a C L n : ℕ) :
    aproveitamentoDe a C L n =
      if 0 < n * C * L then (a : ℚ) / ((n * C * L : ℕ) : ℚ) else 0 := by
  unfold aproveitamentoDe
  rcases Nat.eq_zero_or_pos (n * C * L) with h | h
  · simp [h]
  · rw [if_pos h, if_pos h, Rat.divInt_eq_div]
    push_cast
    rfl

/-- The best-solution update of the driver (lines 138–143 of the source):
replace when the utilization strictly improves, or when it is `isclose` to
the best one and the plate count strictly drops. -/
def atualizar_melhor (melhor : Melhor) (placas : List Padrao) (aprov : ℚ) :
    Melhor :=
  if melhor.2.1 < aprov ∨
      (isclose aprov melhor.2.1 ∧ (placas.length : ℕ∞) < melhor.2.2) then
    (some placas, aprov, (placas.length : ℕ∞))
  else melhor

/-- The `for it in range(max_iter)` loop of `resolver_pcebg`: the first
argument counts the remaining iterations, `it` the current iteration index
(used to index the externalized shuffle and alpha sample), `k` the position
in the `random.choice` stream. -/
def resolver_go (itens : List Item) (C L : ℕ) (alphas : ℕ → ℚ)
    (shuffle : ℕ → List Item → List Item) (rng : ℕ → ℕ) :
    ℕ → ℕ → ℕ → Melhor → Except Unit Melhor
  | 0, _, _, melhor => Except.ok melhor
  | restantes + 1, it, k, melhor =>
    let itensIt := shuffle it itens
    let dem := demandaInicial itens
    match gerar_placas itensIt dem C L (alphas it) rng k with
    | Except.error e => Except.error e
    | Except.ok (placas, k') =>
      let aprov := aproveitamentoDe (area_total_itens itens) C L placas.length
      resolver_go itens C L alphas shuffle rng restantes (it + 1) k'
        (atualizar_melhor melhor placas aprov)

/-- `resolver_pcebg(itens, C, L, max_iter, …)`.  A negative `max_iter`
behaves like Python's empty `range`.  Returns
`(melhor_solucao, melhor_aproveitamento)`, or `Except.error ()` when some
trial raised the infeasibility `ValueError`. -/
def resolver_pcebg (itens : List Item) (C L : ℕ) (max_iter : ℤ)
    (alphas : ℕ → ℚ) (shuffle : ℕ → List Item → List Item) (rng : ℕ → ℕ) :
    Except Unit (Option (List Padrao) × ℚ) :=
  (resolver_go itens C L alphas shuffle rng max_iter.toNat 0 0 (none, 0, ⊤)).map
    fun m => (m.1, m.2.1)

/-! ## Derived observers (used to state the claims) -/

/-- Quantity of the identifier `id` placed in one strip. -/
def qtdFaixa (faixa : Faixa) (id : ℕ) : ℕ :=
  (faixa.map fun t => if t.1.id = id then t.2.1 else 0).sum

/-- Quantity of the identifier `id` placed on one plate. -/
def qtdPadrao (pad : Padrao) (id : ℕ) : ℕ :=
  (pad.map fun p => if p.item.id = id then p.qtd else 0).sum

/-- Quantity of the identifier `id` placed across all plates of a solution. -/
def qtdPlacas (placas : List Padrao) (id : ℕ) : ℕ :=
  (placas.map fun pad => qtdPadrao pad id).sum

/-- Total item area placed on one plate. -/
def areaPadrao (pad : Padrao) : ℕ :=
  (pad.map fun p => p.qtd * p.item.area).sum

/-- Total item area placed across all plates of a solution. -/
def areaPlacas (placas : List Padrao) : ℕ :=
  (placas.map areaPadrao).sum

/-- Utilization recomputed independently from the returned plates: total
placed item area divided by `plate count × C × L` (in `ℚ`, division by zero
yields `0`). -/
def aproveitamentoRecalculado (C L : ℕ) (placas : List Padrao) : ℚ :=
  (areaPlacas placas : ℚ) / ((placas.length * C * L : ℕ) : ℚ)

/-- The rectangles occupied by two placements are disjoint: they are
separated along the x-axis or along the y-axis.  A placement of quantity
`qtd` occupies `[x, x + qtd * c) × [y, y + l)`. -/
def disjuntas (p q : Colocacao) : Prop :=
  p.x + p.qtd * p.item.c ≤ q.x ∨ q.x + q.qtd * q.item.c ≤ p.x ∨
    p.y + p.item.l ≤ q.y ∨ q.y + q.item.l ≤ p.y

/-- The acceptance rule as worded by the specification: a trial with
utilization `aprov` and `numPlacas` plates replaces the best
`(melhorAprov, melhorNum)` exactly when its utilization is strictly
greater, or utilizations are equal within floating tolerance and its plate
count is strictly smaller. -/
def aceita (melhorAprov : ℚ) (melhorNum : ℕ∞) (aprov : ℚ) (numPlacas : ℕ) :
    Prop :=
  melhorAprov < aprov ∨
    (isclose aprov melhorAprov ∧ (numPlacas : ℕ∞) < melhorNum)

instance (a : ℚ) (n : ℕ∞) (b : ℚ) (m : ℕ) : Decidable (aceita a n b m) := by
  unfold aceita; infer_instance

/-! ## Basic lemmas -/

theorem updDemanda_same (dem : Demanda) (id q : ℕ) : updDemanda dem id q id = q := by
  simp [updDemanda]

theorem updDemanda_other (dem : Demanda) (id q j : ℕ) (h : j ≠ id) :
    updDemanda dem id q j = dem j := by
  simp [updDemanda, h]

theorem sum_le_sum_map {α : Type} (l : List α) (f g : α → ℕ)
    (hle : ∀ a ∈ l, f a ≤ g a) : (l.map f).sum ≤ (l.map g).sum := by
  induction l with
  | nil => simp
  | cons b l ih =>
    simp only [List.map_cons, List.sum_cons]
    exact Nat.add_le_add (hle b (List.mem_cons_self b l))
      (ih fun a ha => hle a (List.mem_cons_of_mem b ha))

theorem sum_lt_sum_of_mem {α : Type} (l : List α) (f g : α → ℕ)
    (hle : ∀ a ∈ l, f a ≤ g a) (a : α) (ha : a ∈ l) (hlt : f a < g a) :
    (l.map f).sum < (l.map g).sum := by
  induction l with
  | nil => cases ha
  | cons b l ih =>
    simp only [List.map_cons, List.sum_cons]
    rcases List.mem_cons.mp ha with rfl | ha
    · exact Nat.add_lt_add_of_lt_of_le hlt
        (sum_le_sum_map l f g fun x hx => hle x (List.mem_cons_of_mem _ hx))
    · exact Nat.add_lt_add_of_le_of_lt (hle b (List.mem_cons_self b l))
        (ih (fun x hx => hle x (List.mem_cons_of_mem b hx)) ha)

theorem mem_viaveis {itens : List Item} {dem : Demanda} {C x alt : ℕ} {i : Item} :
    i ∈ viaveis itens dem C x alt ↔
      i ∈ itens ∧ 0 < dem i.id ∧ i.c ≤ C - x ∧ i.l ≤ alt := by
  simp [viaveis]

theorem foldl_max_ge_acc (v : List Item) (acc : ℕ) :
    acc ≤ v.foldl (fun m i => max m i.area) acc := by
  induction v generalizing acc with
  | nil => simp
  | cons b v ih =>
    simp only [List.foldl_cons]
    exact le_trans (le_max_left _ _) (ih _)

theorem le_maxArea {v : List Item} {i : Item} (h : i ∈ v) : i.area ≤ maxArea v := by
  unfold maxArea
  generalize (0 : ℕ) = acc
  induction v generalizing acc with
  | nil => cases h
  | cons b v ih =>
    simp only [List.foldl_cons]
    rcases List.mem_cons.mp h with rfl | h
    · exact le_trans (le_max_right _ _) (foldl_max_ge_acc _ _)
    · exact ih h _

theorem foldl_max_casos (v : List Item) (acc : ℕ) :
    v.foldl (fun m i => max m i.area) acc ≤ acc ∨
      ∃ i ∈ v, v.foldl (fun m i => max m i.area) acc ≤ i.area := by
  induction v generalizing acc with
  | nil => exact Or.inl le_rfl
  | cons b v ih =>
    simp only [List.foldl_cons]
    rcases ih (max acc b.area) with h | ⟨i, hi, h⟩
    · rcases max_cases acc b.area with ⟨he, _⟩ | ⟨he, _⟩
      · exact Or.inl (h.trans (le_of_eq he))
      · exact Or.inr ⟨b, List.mem_cons_self b v, h.trans (le_of_eq he)⟩
    · exact Or.inr ⟨i, List.mem_cons_of_mem b hi, h⟩

theorem maxArea_atingido {v : List Item} (hv : v ≠ []) :
    ∃ i ∈ v, maxArea v ≤ i.area := by
  rcases foldl_max_casos v 0 with h | h
  · obtain ⟨i, hi⟩ := List.exists_mem_of_ne_nil v hv
    exact ⟨i, hi, le_trans (Nat.le_zero.mp h).le (Nat.zero_le _)⟩
  · exact h

theorem mem_lrc {v : List Item} {alpha : ℚ} {i : Item} :
    i ∈ lrc v alpha ↔ i ∈ v ∧ naLRC alpha (maxArea v) i.area := by
  simp [lrc]

theorem lrc_ne_nil {v : List Item} (hv : v ≠ []) {alpha : ℚ} (h1 : alpha ≤ 1) :
    lrc v alpha ≠ [] := by
  obtain ⟨i, hi, hle⟩ := maxArea_atingido hv
  have : i ∈ lrc v alpha := by
    rw [mem_lrc]
    refine ⟨hi, ?_⟩
    unfold naLRC
    calc alpha * (maxArea v : ℚ) ≤ 1 * (maxArea v : ℚ) :=
          mul_le_mul_of_nonneg_right h1 (by positivity)
      _ = (maxArea v : ℚ) := one_mul _
      _ ≤ (i.area : ℚ) := by exact_mod_cast hle
  intro hnil
  rw [hnil] at this
  cases this

theorem escolher_mem {l : List Item} {r : ℕ} {i : Item} (h : escolher l r = some i) :
    i ∈ l := by
  unfold escolher at h
  exact List.get?_mem h

theorem escolher_isSome {l : List Item} (hl : l ≠ []) (r : ℕ) :
    ∃ i, escolher l r = some i := by
  unfold escolher
  have hlen : 0 < l.length := List.length_pos.mpr hl
  have hr : r % l.length < l.length := Nat.mod_lt _ hlen
  rw [List.get?_eq_get hr]
  exact ⟨_, rfl⟩

/-! ## Unfolding lemmas for the strip-builder loop -/

theorem criar_faixa_go_zero (itens : List Item) (C alt : ℕ) (alpha : ℚ)
    (rng : ℕ → ℕ) (dem : Demanda) (k x : ℕ) :
    criar_faixa_go itens C alt alpha rng 0 dem k x = ([], dem, k) := by
  rw [criar_faixa_go]
  split <;> rfl

theorem criar_faixa_go_nlt (itens : List Item) (C alt : ℕ) (alpha : ℚ)
    (rng : ℕ → ℕ) (fuel : ℕ) (dem : Demanda) (k x : ℕ) (hx : ¬ x < C) :
    criar_faixa_go itens C alt alpha rng fuel dem k x = ([], dem, k) := by
  cases fuel with
  | zero => exact criar_faixa_go_zero itens C alt alpha rng dem k x
  | succ fuel =>
    rw [criar_faixa_go]
    rw [if_neg hx]

theorem criar_faixa_go_nil (itens : List Item) (C alt : ℕ) (alpha : ℚ)
    (rng : ℕ → ℕ) (fuel : ℕ) (dem : Demanda) (k x : ℕ) (hx : x < C)
    (hv : viaveis itens dem C x alt = []) :
    criar_faixa_go itens C alt alpha rng (fuel + 1) dem k x = ([], dem, k) := by
  rw [criar_faixa_go]
  simp only [if_pos hx, hv, if_pos rfl, if_true]

theorem criar_faixa_go_none (itens : List Item) (C alt : ℕ) (alpha : ℚ)
    (rng : ℕ → ℕ) (fuel : ℕ) (dem : Demanda) (k x : ℕ) (hx : x < C)
    (hv : ¬ viaveis itens dem C x alt = [])
    (he : escolher (lrc (viaveis itens dem C x alt) alpha) (rng k) = none) :
    criar_faixa_go itens C alt alpha rng (fuel + 1) dem k x = ([], dem, k) := by
  rw [criar_faixa_go]
  simp only [if_pos hx, if_neg hv, he]

theorem criar_faixa_go_qtd0 (itens : List Item) (C alt : ℕ) (alpha : ℚ)
    (rng : ℕ → ℕ) (fuel : ℕ) (dem : Demanda) (k x : ℕ) {item : Item} (hx : x < C)
    (hv : ¬ viaveis itens dem C x alt = [])
    (he : escolher (lrc (viaveis itens dem C x alt) alpha) (rng k) = some item)
    (hq : min (dem item.id) ((C - x) / item.c) = 0) :
    criar_faixa_go itens C alt alpha rng (fuel + 1) dem k x = ([], dem, k) := by
  rw [criar_faixa_go]
  simp only [if_pos hx, if_neg hv, he, hq, if_pos rfl, if_true]

theorem criar_faixa_go_passo (itens : List Item) (C alt : ℕ) (alpha : ℚ)
    (rng : ℕ → ℕ) (fuel : ℕ) (dem : Demanda) (k x : ℕ) {item : Item} (hx : x < C)
    (hv : ¬ viaveis itens dem C x alt = [])
    (he : escolher (lrc (viaveis itens dem C x alt) alpha) (rng k) = some item)
    (hq : ¬ min (dem item.id) ((C - x) / item.c) = 0) :
    criar_faixa_go itens C alt alpha rng (fuel + 1) dem k x =
      ((item, min (dem item.id) ((C - x) / item.c), x) ::
          (criar_faixa_go itens C alt alpha rng fuel
            (updDemanda dem item.id
              (dem item.id - min (dem item.id) ((C - x) / item.c)))
            (k + 1) (x + min (dem item.id) ((C - x) / item.c) * item.c)).1,
        (criar_faixa_go itens C alt alpha rng fuel
          (updDemanda dem item.id
            (dem item.id - min (dem item.id) ((C - x) / item.c)))
          (k + 1) (x + min (dem item.id) ((C - x) / item.c) * item.c)).2) := by
  rw [criar_faixa_go]
  simp only [if_pos hx, if_neg hv, he, if_neg hq]

/-! ## Invariants of the strip builder -/

theorem qtdFaixa_nil (id : ℕ) : qtdFaixa [] id = 0 := rfl

theorem qtdFaixa_cons (t : Item × ℕ × ℕ) (f : Faixa) (id : ℕ) :
    qtdFaixa (t :: f) id = (if t.1.id = id then t.2.1 else 0) + qtdFaixa f id := by
  simp [qtdFaixa]

theorem cf_dem_le (itens : List Item) (C alt : ℕ) (alpha : ℚ) (rng : ℕ → ℕ) :
    ∀ (fuel : ℕ) (dem : Demanda) (k x id : ℕ),
      (criar_faixa_go itens C alt alpha rng fuel dem k x).2.1 id ≤ dem id := by
  intro fuel
  induction fuel with
  | zero =>
    intro dem k x id
    rw [criar_faixa_go_zero]
  | succ fuel ih =>
    intro dem k x id
    by_cases hx : x < C
    · by_cases hv : viaveis itens dem C x alt = []
      · rw [criar_faixa_go_nil itens C alt alpha rng fuel dem k x hx hv]
      · cases hesc : escolher (lrc (viaveis itens dem C x alt) alpha) (rng k) with
        | none => rw [criar_faixa_go_none itens C alt alpha rng fuel dem k x hx hv hesc]
        | some item =>
          by_cases hq : min (dem item.id) ((C - x) / item.c) = 0
          · rw [criar_faixa_go_qtd0 itens C alt alpha rng fuel dem k x hx hv hesc hq]
          · rw [criar_faixa_go_passo itens C alt alpha rng fuel dem k x hx hv hesc hq]
            refine le_trans (ih _ _ _ id) ?_
            unfold updDemanda
            by_cases hid : id = item.id
            · simp [hid, Nat.sub_le]
            · simp [hid]
    · rw [criar_faixa_go_nlt itens C alt alpha rng (fuel + 1) dem k x hx]

theorem cf_conserva (itens : List Item) (C alt : ℕ) (alpha : ℚ) (rng : ℕ → ℕ) :
    ∀ (fuel : ℕ) (dem : Demanda) (k x id : ℕ),
      (criar_faixa_go itens C alt alpha rng fuel dem k x).2.1 id +
        qtdFaixa (criar_faixa_go itens C alt alpha rng fuel dem k x).1 id = dem id := by
  intro fuel
  induction fuel with
  | zero =>
    intro dem k x id
    rw [criar_faixa_go_zero]
    simp [qtdFaixa_nil]
  | succ fuel ih =>
    intro dem k x id
    by_cases hx : x < C
    · by_cases hv : viaveis itens dem C x alt = []
      · rw [criar_faixa_go_nil itens C alt alpha rng fuel dem k x hx hv]
        simp [qtdFaixa_nil]
      · cases hesc : escolher (lrc (viaveis itens dem C x alt) alpha) (rng k) with
        | none =>
          rw [criar_faixa_go_none itens C alt alpha rng fuel dem k x hx hv hesc]
          simp [qtdFaixa_nil]
        | some item =>
          by_cases hq : min (dem item.id) ((C - x) / item.c) = 0
          · rw [criar_faixa_go_qtd0 itens C alt alpha rng fuel dem k x hx hv hesc hq]
            simp [qtdFaixa_nil]
          · rw [criar_faixa_go_passo itens C alt alpha rng fuel dem k x hx hv hesc hq]
            dsimp only
            have hih := ih (updDemanda dem item.id
              (dem item.id - min (dem item.id) ((C - x) / item.c)))
              (k + 1) (x + min (dem item.id) ((C - x) / item.c) * item.c) id
            rw [qtdFaixa_cons]
            have hqle : min (dem item.id) ((C - x) / item.c) ≤ dem item.id :=
              min_le_left _ _
            by_cases hid : item.id = id
            · subst hid
              rw [updDemanda_same] at hih
              rw [if_pos rfl]
              dsimp only
              omega
            · rw [updDemanda_other dem item.id _ id (fun h => hid h.symm)] at hih
              rw [if_neg hid]
              omega
    · rw [criar_faixa_go_nlt itens C alt alpha rng (fuel + 1) dem k x hx]
      simp [qtdFaixa_nil]

theorem cf_runs (itens : List Item) (C alt : ℕ) (alpha : ℚ) (rng : ℕ → ℕ) :
    ∀ (fuel : ℕ) (dem : Demanda) (k x : ℕ),
      ∀ t ∈ (criar_faixa_go itens C alt alpha rng fuel dem k x).1,
        t.1 ∈ itens ∧ 1 ≤ t.2.1 ∧ t.1.l ≤ alt ∧ x ≤ t.2.2 ∧
          t.2.2 + t.2.1 * t.1.c ≤ C := by
  intro fuel
  induction fuel with
  | zero =>
    intro dem k x t ht
    rw [criar_faixa_go_zero] at ht
    cases ht
  | succ fuel ih =>
    intro dem k x t ht
    by_cases hx : x < C
    · by_cases hv : viaveis itens dem C x alt = []
      · rw [criar_faixa_go_nil itens C alt alpha rng fuel dem k x hx hv] at ht
        cases ht
      · cases hesc : escolher (lrc (viaveis itens dem C x alt) alpha) (rng k) with
        | none =>
          rw [criar_faixa_go_none itens C alt alpha rng fuel dem k x hx hv hesc] at ht
          cases ht
        | some item =>
          by_cases hq : min (dem item.id) ((C - x) / item.c) = 0
          · rw [criar_faixa_go_qtd0 itens C alt alpha rng fuel dem k x hx hv hesc hq]
              at ht
            cases ht
          · rw [criar_faixa_go_passo itens C alt alpha rng fuel dem k x hx hv hesc hq]
              at ht
            have hmem : item ∈ viaveis itens dem C x alt :=
              (mem_lrc.mp (escolher_mem hesc)).1
            obtain ⟨hmi, _, hwc, hlc⟩ := mem_viaveis.mp hmem
            rcases List.mem_cons.mp ht with rfl | ht
            · refine ⟨hmi, Nat.one_le_iff_ne_zero.mpr hq, hlc, le_rfl, ?_⟩
              have h1 : min (dem item.id) ((C - x) / item.c) ≤ (C - x) / item.c :=
                min_le_right _ _
              have h2 : min (dem item.id) ((C - x) / item.c) * item.c ≤
                  (C - x) / item.c * item.c := Nat.mul_le_mul_right _ h1
              have h3 : (C - x) / item.c * item.c ≤ C - x := Nat.div_mul_le_self _ _
              show x + min (dem item.id) ((C - x) / item.c) * item.c ≤ C
              omega
            · obtain ⟨ha, hb, hc, hd, he⟩ := ih _ _ _ t ht
              refine ⟨ha, hb, hc, ?_, he⟩
              omega
    · rw [criar_faixa_go_nlt itens C alt alpha rng (fuel + 1) dem k x hx] at ht
      cases ht

theorem cf_cadeia (itens : List Item) (C alt : ℕ) (alpha : ℚ) (rng : ℕ → ℕ) :
    ∀ (fuel : ℕ) (dem : Demanda) (k x : ℕ),
      List.Pairwise (fun a b => a.2.2 + a.2.1 * a.1.c ≤ b.2.2)
        (criar_faixa_go itens C alt alpha rng fuel dem k x).1 := by
  intro fuel
  induction fuel with
  | zero =>
    intro dem k x
    rw [criar_faixa_go_zero]
    exact List.Pairwise.nil
  | succ fuel ih =>
    intro dem k x
    by_cases hx : x < C
    · by_cases hv : viaveis itens dem C x alt = []
      · rw [criar_faixa_go_nil itens C alt alpha rng fuel dem k x hx hv]
        exact List.Pairwise.nil
      · cases hesc : escolher (lrc (viaveis itens dem C x alt) alpha) (rng k) with
        | none =>
          rw [criar_faixa_go_none itens C alt alpha rng fuel dem k x hx hv hesc]
          exact List.Pairwise.nil
        | some item =>
          by_cases hq : min (dem item.id) ((C - x) / item.c) = 0
          · rw [criar_faixa_go_qtd0 itens C alt alpha rng fuel dem k x hx hv hesc hq]
            exact List.Pairwise.nil
          · rw [criar_faixa_go_passo itens C alt alpha rng fuel dem k x hx hv hesc hq]
            refine List.Pairwise.cons ?_ (ih _ _ _)
            intro t ht
            have := (cf_runs itens C alt alpha rng fuel _ _ _ t ht).2.2.2.1
            exact this
    · rw [criar_faixa_go_nlt itens C alt alpha rng (fuel + 1) dem k x hx]
      exact List.Pairwise.nil

theorem cf_strict (itens : List Item) (C alt : ℕ) (alpha : ℚ) (rng : ℕ → ℕ)
    (fuel : ℕ) (dem : Demanda) (k x : ℕ)
    (h : (criar_faixa_go itens C alt alpha rng fuel dem k x).1 ≠ []) :
    demSum itens (criar_faixa_go itens C alt alpha rng fuel dem k x).2.1 <
      demSum itens dem := by
  cases hres : (criar_faixa_go itens C alt alpha rng fuel dem k x).1 with
  | nil => exact absurd hres h
  | cons t rest =>
    have ht : t ∈ (criar_faixa_go itens C alt alpha rng fuel dem k x).1 := by
      rw [hres]; exact List.mem_cons_self t rest
    have hq1 : 1 ≤ t.2.1 := (cf_runs itens C alt alpha rng fuel dem k x t ht).2.1
    have hmi : t.1 ∈ itens := (cf_runs itens C alt alpha rng fuel dem k x t ht).1
    have hcons := cf_conserva itens C alt alpha rng fuel dem k x t.1.id
    rw [hres, qtdFaixa_cons, if_pos rfl] at hcons
    have hlt : (criar_faixa_go itens C alt alpha rng fuel dem k x).2.1 t.1.id <
        dem t.1.id := by omega
    unfold demSum
    exact sum_lt_sum_of_mem itens _ _
      (fun i _ => cf_dem_le itens C alt alpha rng fuel dem k x i.id) t.1 hmi hlt

theorem cf_fuel_estavel (itens : List Item) (C alt : ℕ) (alpha : ℚ) (rng : ℕ → ℕ) :
    ∀ (fuel : ℕ) (dem : Demanda) (k x : ℕ), C - x ≤ fuel → ∀ extra : ℕ,
      criar_faixa_go itens C alt alpha rng (fuel + extra) dem k x =
        criar_faixa_go itens C alt alpha rng fuel dem k x := by
  intro fuel
  induction fuel with
  | zero =>
    intro dem k x hfx extra
    have hx : ¬ x < C := by omega
    rw [criar_faixa_go_nlt itens C alt alpha rng (0 + extra) dem k x hx,
      criar_faixa_go_zero]
  | succ fuel ih =>
    intro dem k x hfx extra
    have hsh : fuel + 1 + extra = (fuel + extra) + 1 := by omega
    rw [hsh]
    by_cases hx : x < C
    · by_cases hv : viaveis itens dem C x alt = []
      · rw [criar_faixa_go_nil itens C alt alpha rng (fuel + extra) dem k x hx hv,
          criar_faixa_go_nil itens C alt alpha rng fuel dem k x hx hv]
      · cases hesc : escolher (lrc (viaveis itens dem C x alt) alpha) (rng k) with
        | none =>
          rw [criar_faixa_go_none itens C alt alpha rng (fuel + extra) dem k x hx hv hesc,
            criar_faixa_go_none itens C alt alpha rng fuel dem k x hx hv hesc]
        | some item =>
          by_cases hq : min (dem item.id) ((C - x) / item.c) = 0
          · rw [criar_faixa_go_qtd0 itens C alt alpha rng (fuel + extra) dem k x hx hv
              hesc hq,
              criar_faixa_go_qtd0 itens C alt alpha rng fuel dem k x hx hv hesc hq]
          · rw [criar_faixa_go_passo itens C alt alpha rng (fuel + extra) dem k x hx hv
              hesc hq,
              criar_faixa_go_passo itens C alt alpha rng fuel dem k x hx hv hesc hq]
            have hc1 : 1 ≤ item.c := by
              by_contra hc
              have : item.c = 0 := by omega
              rw [this, Nat.div_zero] at hq
              simp at hq
            have hq1 : 1 ≤ min (dem item.id) ((C - x) / item.c) :=
              Nat.one_le_iff_ne_zero.mpr hq
            have hrec : C - (x + min (dem item.id) ((C - x) / item.c) * item.c) ≤ fuel := by
              have : 1 ≤ min (dem item.id) ((C - x) / item.c) * item.c :=
                Nat.one_le_iff_ne_zero.mpr (Nat.mul_ne_zero (by omega) (by omega))
              omega
            rw [ih _ (k + 1) _ hrec extra]
    · rw [criar_faixa_go_nlt itens C alt alpha rng ((fuel + extra) + 1) dem k x hx,
        criar_faixa_go_nlt itens C alt alpha rng (fuel + 1) dem k x hx]

/-! ## The same invariants phrased for the wrapper `criar_faixa` -/

theorem criar_faixa_conserva (itens : List Item) (dem : Demanda) (C alt : ℕ)
    (alpha : ℚ) (rng : ℕ → ℕ) (k id : ℕ) :
    (criar_faixa itens dem C alt alpha rng k).2.1 id +
      qtdFaixa (criar_faixa itens dem C alt alpha rng k).1 id = dem id :=
  cf_conserva itens C alt alpha rng C dem k 0 id

theorem criar_faixa_dem_le (itens : List Item) (dem : Demanda) (C alt : ℕ)
    (alpha : ℚ) (rng : ℕ → ℕ) (k id : ℕ) :
    (criar_faixa itens dem C alt alpha rng k).2.1 id ≤ dem id :=
  cf_dem_le itens C alt alpha rng C dem k 0 id

theorem criar_faixa_runs (itens : List Item) (dem : Demanda) (C alt : ℕ)
    (alpha : ℚ) (rng : ℕ → ℕ) (k : ℕ) :
    ∀ t ∈ (criar_faixa itens dem C alt alpha rng k).1,
      t.1 ∈ itens ∧ 1 ≤ t.2.1 ∧ t.1.l ≤ alt ∧ 0 ≤ t.2.2 ∧
        t.2.2 + t.2.1 * t.1.c ≤ C :=
  cf_runs itens C alt alpha rng C dem k 0

theorem criar_faixa_cadeia (itens : List Item) (dem : Demanda) (C alt : ℕ)
    (alpha : ℚ) (rng : ℕ → ℕ) (k : ℕ) :
    List.Pairwise (fun a b => a.2.2 + a.2.1 * a.1.c ≤ b.2.2)
      (criar_faixa itens dem C alt alpha rng k).1 :=
  cf_cadeia itens C alt alpha rng C dem k 0

theorem criar_faixa_strict (itens : List Item) (dem : Demanda) (C alt : ℕ)
    (alpha : ℚ) (rng : ℕ → ℕ) (k : ℕ)
    (h : (criar_faixa itens dem C alt alpha rng k).1 ≠ []) :
    demSum itens (criar_faixa itens dem C alt alpha rng k).2.1 < demSum itens dem :=
  cf_strict itens C alt alpha rng C dem k 0 h

/-! ## Unfolding lemmas for the plate-builder loop -/

theorem gerar_padrao_go_zero (itens : List Item) (C L : ℕ) (alpha : ℚ)
    (rng : ℕ → ℕ) (dem : Demanda) (k y : ℕ) :
    gerar_padrao_go itens C L alpha rng 0 dem k y = ([], dem, k) := by
  rw [gerar_padrao_go]
  split <;> rfl

theorem gerar_padrao_go_para (itens : List Item) (C L : ℕ) (alpha : ℚ)
    (rng : ℕ → ℕ) (fuel : ℕ) (dem : Demanda) (k y : ℕ)
    (h : ¬ (y < L ∧ temDemanda itens dem = true)) :
    gerar_padrao_go itens C L alpha rng fuel dem k y = ([], dem, k) := by
  cases fuel with
  | zero => exact gerar_padrao_go_zero itens C L alpha rng dem k y
  | succ fuel =>
    rw [gerar_padrao_go]
    rw [if_neg h]

theorem gerar_padrao_go_vazia (itens : List Item) (C L : ℕ) (alpha : ℚ)
    (rng : ℕ → ℕ) (fuel : ℕ) (dem : Demanda) (k y : ℕ)
    (h : y < L ∧ temDemanda itens dem = true)
    (hf : (criar_faixa itens dem C (L - y) alpha rng k).1 = []) :
    gerar_padrao_go itens C L alpha rng (fuel + 1) dem k y =
      ([], (criar_faixa itens dem C (L - y) alpha rng k).2.1,
        (criar_faixa itens dem C (L - y) alpha rng k).2.2) := by
  rw [gerar_padrao_go]
  simp only [if_pos h, hf, if_pos rfl, if_true]

theorem gerar_padrao_go_passo (itens : List Item) (C L : ℕ) (alpha : ℚ)
    (rng : ℕ → ℕ) (fuel : ℕ) (dem : Demanda) (k y : ℕ)
    (h : y < L ∧ temDemanda itens dem = true)
    (hf : ¬ (criar_faixa itens dem C (L - y) alpha rng k).1 = []) :
    gerar_padrao_go itens C L alpha rng (fuel + 1) dem k y =
      ((criar_faixa itens dem C (L - y) alpha rng k).1.map
          (fun t => ⟨t.1, t.2.1, t.2.2, y⟩) ++
        (gerar_padrao_go itens C L alpha rng fuel
          (criar_faixa itens dem C (L - y) alpha rng k).2.1
          (criar_faixa itens dem C (L - y) alpha rng k).2.2
          (y + alturaFaixa (criar_faixa itens dem C (L - y) alpha rng k).1)).1,
        (gerar_padrao_go itens C L alpha rng fuel
          (criar_faixa itens dem C (L - y) alpha rng k).2.1
          (criar_faixa itens dem C (L - y) alpha rng k).2.2
          (y + alturaFaixa (criar_faixa itens dem C (L - y) alpha rng k).1)).2) := by
  rw [gerar_padrao_go]
  simp only [if_pos h, if_neg hf]

/-! ## Invariants of the plate builder -/

theorem demSum_le (itens : List Item) (d1 d2 : Demanda)
    (h : ∀ id, d1 id ≤ d2 id) : demSum itens d1 ≤ demSum itens d2 :=
  sum_le_sum_map itens _ _ fun i _ => h i.id

theorem le_demSum (itens : List Item) (dem : Demanda) {i : Item} (h : i ∈ itens) :
    dem i.id ≤ demSum itens dem := by
  unfold demSum
  induction itens with
  | nil => cases h
  | cons b l ih =>
    simp only [List.map_cons, List.sum_cons]
    rcases List.mem_cons.mp h with rfl | h
    · exact Nat.le_add_right _ _
    · exact le_trans (ih h) (Nat.le_add_left _ _)

theorem temDemanda_iff (itens : List Item) (dem : Demanda) :
    temDemanda itens dem = true ↔ ∃ i ∈ itens, 0 < dem i.id := by
  simp [temDemanda]

theorem temDemanda_demSum (itens : List Item) (dem : Demanda)
    (h : temDemanda itens dem = true) : 0 < demSum itens dem := by
  obtain ⟨i, hi, hd⟩ := (temDemanda_iff itens dem).mp h
  exact lt_of_lt_of_le hd (le_demSum itens dem hi)

theorem demSum_zero_sem (itens : List Item) (dem : Demanda)
    (h : demSum itens dem = 0) : temDemanda itens dem = false := by
  by_contra hc
  have := temDemanda_demSum itens dem (by
    cases htd : temDemanda itens dem
    · exact absurd htd hc
    · rfl)
  omega

theorem qtdPadrao_nil (id : ℕ) : qtdPadrao [] id = 0 := rfl

theorem qtdPadrao_append (p q : Padrao) (id : ℕ) :
    qtdPadrao (p ++ q) id = qtdPadrao p id + qtdPadrao q id := by
  simp [qtdPadrao]

theorem qtdPadrao_map_faixa (faixa : Faixa) (y id : ℕ) :
    qtdPadrao (faixa.map fun t => ⟨t.1, t.2.1, t.2.2, y⟩) id = qtdFaixa faixa id := by
  unfold qtdPadrao qtdFaixa
  rw [List.map_map]
  rfl

theorem foldl_altura_ge_acc (f : Faixa) (acc : ℕ) :
    acc ≤ f.foldl (fun m r => max m r.1.l) acc := by
  induction f generalizing acc with
  | nil => simp
  | cons b f ih =>
    simp only [List.foldl_cons]
    exact le_trans (le_max_left _ _) (ih _)

theorem le_alturaFaixa {f : Faixa} {t : Item × ℕ × ℕ} (h : t ∈ f) :
    t.1.l ≤ alturaFaixa f := by
  unfold alturaFaixa
  generalize (0 : ℕ) = acc
  induction f generalizing acc with
  | nil => cases h
  | cons b f ih =>
    simp only [List.foldl_cons]
    rcases List.mem_cons.mp h with rfl | h
    · exact le_trans (le_max_right _ _) (foldl_altura_ge_acc _ _)
    · exact ih h _

theorem gp_conserva (itens : List Item) (C L : ℕ) (alpha : ℚ) (rng : ℕ → ℕ) :
    ∀ (fuel : ℕ) (dem : Demanda) (k y id : ℕ),
      (gerar_padrao_go itens C L alpha rng fuel dem k y).2.1 id +
        qtdPadrao (gerar_padrao_go itens C L alpha rng fuel dem k y).1 id = dem id := by
  intro fuel
  induction fuel with
  | zero =>
    intro dem k y id
    rw [gerar_padrao_go_zero]
    simp [qtdPadrao_nil]
  | succ fuel ih =>
    intro dem k y id
    by_cases h : y < L ∧ temDemanda itens dem = true
    · by_cases hf : (criar_faixa itens dem C (L - y) alpha rng k).1 = []
      · rw [gerar_padrao_go_vazia itens C L alpha rng fuel dem k y h hf]
        have hc := criar_faixa_conserva itens dem C (L - y) alpha rng k id
        rw [hf, qtdFaixa_nil] at hc
        simpa [qtdPadrao_nil] using hc
      · rw [gerar_padrao_go_passo itens C L alpha rng fuel dem k y h hf]
        dsimp only
        rw [qtdPadrao_append, qtdPadrao_map_faixa]
        have hc := criar_faixa_conserva itens dem C (L - y) alpha rng k id
        have hih := ih (criar_faixa itens dem C (L - y) alpha rng k).2.1
          (criar_faixa itens dem C (L - y) alpha rng k).2.2
          (y + alturaFaixa (criar_faixa itens dem C (L - y) alpha rng k).1) id
        omega
    · rw [gerar_padrao_go_para itens C L alpha rng (fuel + 1) dem k y h]
      simp [qtdPadrao_nil]

theorem gp_dem_le (itens : List Item) (C L : ℕ) (alpha : ℚ) (rng : ℕ → ℕ)
    (fuel : ℕ) (dem : Demanda) (k y id : ℕ) :
    (gerar_padrao_go itens C L alpha rng fuel dem k y).2.1 id ≤ dem id := by
  have := gp_conserva itens C L alpha rng fuel dem k y id
  omega

theorem gp_coloc (itens : List Item) (C L : ℕ) (alpha : ℚ) (rng : ℕ → ℕ) :
    ∀ (fuel : ℕ) (dem : Demanda) (k y : ℕ),
      ∀ p ∈ (gerar_padrao_go itens C L alpha rng fuel dem k y).1,
        p.item ∈ itens ∧ 1 ≤ p.qtd ∧ y ≤ p.y ∧ p.y + p.item.l ≤ L ∧
          p.x + p.qtd * p.item.c ≤ C := by
  intro fuel
  induction fuel with
  | zero =>
    intro dem k y p hp
    rw [gerar_padrao_go_zero] at hp
    cases hp
  | succ fuel ih =>
    intro dem k y p hp
    by_cases h : y < L ∧ temDemanda itens dem = true
    · by_cases hf : (criar_faixa itens dem C (L - y) alpha rng k).1 = []
      · rw [gerar_padrao_go_vazia itens C L alpha rng fuel dem k y h hf] at hp
        cases hp
      · rw [gerar_padrao_go_passo itens C L alpha rng fuel dem k y h hf] at hp
        dsimp only at hp
        rcases List.mem_append.mp hp with hp | hp
        · obtain ⟨t, ht, rfl⟩ := List.mem_map.mp hp
          obtain ⟨hmi, hq1, hl, _, hxc⟩ :=
            criar_faixa_runs itens dem C (L - y) alpha rng k t ht
          exact ⟨hmi, hq1, le_rfl, by dsimp only; omega, hxc⟩
        · obtain ⟨hmi, hq1, hy, hyl, hxc⟩ := ih _ _ _ p hp
          exact ⟨hmi, hq1, by omega, hyl, hxc⟩
    · rw [gerar_padrao_go_para itens C L alpha rng (fuel + 1) dem k y h] at hp
      cases hp

theorem gp_pairwise (itens : List Item) (C L : ℕ) (alpha : ℚ) (rng : ℕ → ℕ) :
    ∀ (fuel : ℕ) (dem : Demanda) (k y : ℕ),
      List.Pairwise disjuntas (gerar_padrao_go itens C L alpha rng fuel dem k y).1 := by
  intro fuel
  induction fuel with
  | zero =>
    intro dem k y
    rw [gerar_padrao_go_zero]
    exact List.Pairwise.nil
  | succ fuel ih =>
    intro dem k y
    by_cases h : y < L ∧ temDemanda itens dem = true
    · by_cases hf : (criar_faixa itens dem C (L - y) alpha rng k).1 = []
      · rw [gerar_padrao_go_vazia itens C L alpha rng fuel dem k y h hf]
        exact List.Pairwise.nil
      · rw [gerar_padrao_go_passo itens C L alpha rng fuel dem k y h hf]
        dsimp only
        rw [List.pairwise_append]
        refine ⟨?_, ih _ _ _, ?_⟩
        · have hchain := criar_faixa_cadeia itens dem C (L - y) alpha rng k
          exact List.Pairwise.map
            (fun t : Item × ℕ × ℕ => (⟨t.1, t.2.1, t.2.2, y⟩ : Colocacao))
            (fun a b hab => Or.inl hab) hchain
        · intro a ha b hb
          obtain ⟨t, ht, rfl⟩ := List.mem_map.mp ha
          have hb' := (gp_coloc itens C L alpha rng fuel _ _ _ b hb).2.2.1
          have hl : t.1.l ≤ alturaFaixa (criar_faixa itens dem C (L - y) alpha rng k).1 :=
            le_alturaFaixa ht
          unfold disjuntas
          right; right; left
          dsimp only
          omega
    · rw [gerar_padrao_go_para itens C L alpha rng (fuel + 1) dem k y h]
      exact List.Pairwise.nil

theorem gp_strict (itens : List Item) (C L : ℕ) (alpha : ℚ) (rng : ℕ → ℕ)
    (fuel : ℕ) (dem : Demanda) (k y : ℕ)
    (h : (gerar_padrao_go itens C L alpha rng fuel dem k y).1 ≠ []) :
    demSum itens (gerar_padrao_go itens C L alpha rng fuel dem k y).2.1 <
      demSum itens dem := by
  cases fuel with
  | zero =>
    rw [gerar_padrao_go_zero] at h
    exact absurd rfl h
  | succ fuel =>
    by_cases hc : y < L ∧ temDemanda itens dem = true
    · by_cases hf : (criar_faixa itens dem C (L - y) alpha rng k).1 = []
      · rw [gerar_padrao_go_vazia itens C L alpha rng fuel dem k y hc hf] at h
        exact absurd rfl h
      · rw [gerar_padrao_go_passo itens C L alpha rng fuel dem k y hc hf]
        dsimp only
        have h1 : demSum itens (criar_faixa itens dem C (L - y) alpha rng k).2.1 <
            demSum itens dem := criar_faixa_strict itens dem C (L - y) alpha rng k hf
        have h2 : demSum itens
            (gerar_padrao_go itens C L alpha rng fuel
              (criar_faixa itens dem C (L - y) alpha rng k).2.1
              (criar_faixa itens dem C (L - y) alpha rng k).2.2
              (y + alturaFaixa (criar_faixa itens dem C (L - y) alpha rng k).1)).2.1 ≤
            demSum itens (criar_faixa itens dem C (L - y) alpha rng k).2.1 :=
          demSum_le itens _ _ fun id => gp_dem_le itens C L alpha rng fuel _ _ _ id
        omega
    · rw [gerar_padrao_go_para itens C L alpha rng (fuel + 1) dem k y hc] at h
      exact absurd rfl h

theorem gp_fuel_estavel (itens : List Item) (C L : ℕ) (alpha : ℚ) (rng : ℕ → ℕ) :
    ∀ (fuel : ℕ) (dem : Demanda) (k y : ℕ), demSum itens dem ≤ fuel → ∀ extra : ℕ,
      gerar_padrao_go itens C L alpha rng (fuel + extra) dem k y =
        gerar_padrao_go itens C L alpha rng fuel dem k y := by
  intro fuel
  induction fuel with
  | zero =>
    intro dem k y hds extra
    have hz : demSum itens dem = 0 := by omega
    have htd := demSum_zero_sem itens dem hz
    rw [gerar_padrao_go_para itens C L alpha rng (0 + extra) dem k y (by simp [htd]),
      gerar_padrao_go_zero]
  | succ fuel ih =>
    intro dem k y hds extra
    have hsh : fuel + 1 + extra = (fuel + extra) + 1 := by omega
    rw [hsh]
    by_cases h : y < L ∧ temDemanda itens dem = true
    · by_cases hf : (criar_faixa itens dem C (L - y) alpha rng k).1 = []
      · rw [gerar_padrao_go_vazia itens C L alpha rng (fuel + extra) dem k y h hf,
          gerar_padrao_go_vazia itens C L alpha rng fuel dem k y h hf]
      · rw [gerar_padrao_go_passo itens C L alpha rng (fuel + extra) dem k y h hf,
          gerar_padrao_go_passo itens C L alpha rng fuel dem k y h hf]
        have h1 : demSum itens (criar_faixa itens dem C (L - y) alpha rng k).2.1 <
            demSum itens dem := criar_faixa_strict itens dem C (L - y) alpha rng k hf
        rw [ih _ _ _ (by omega) extra]
    · rw [gerar_padrao_go_para itens C L alpha rng ((fuel + extra) + 1) dem k y h,
        gerar_padrao_go_para itens C L alpha rng (fuel + 1) dem k y h]

/-! ## The same invariants phrased for the wrapper `gerar_padrao` -/

theorem gerar_padrao_conserva (itens : List Item) (dem : Demanda) (C L : ℕ)
    (alpha : ℚ) (rng : ℕ → ℕ) (k id : ℕ) :
    (gerar_padrao itens dem C L alpha rng k).2.1 id +
      qtdPadrao (gerar_padrao itens dem C L alpha rng k).1 id = dem id :=
  gp_conserva itens C L alpha rng (demSum itens dem) dem k 0 id

theorem gerar_padrao_dem_le (itens : List Item) (dem : Demanda) (C L : ℕ)
    (alpha : ℚ) (rng : ℕ → ℕ) (k id : ℕ) :
    (gerar_padrao itens dem C L alpha rng k).2.1 id ≤ dem id :=
  gp_dem_le itens C L alpha rng (demSum itens dem) dem k 0 id

theorem gerar_padrao_coloc (itens : List Item) (dem : Demanda) (C L : ℕ)
    (alpha : ℚ) (rng : ℕ → ℕ) (k : ℕ) :
    ∀ p ∈ (gerar_padrao itens dem C L alpha rng k).1,
      p.item ∈ itens ∧ 1 ≤ p.qtd ∧ p.y + p.item.l ≤ L ∧
        p.x + p.qtd * p.item.c ≤ C := by
  intro p hp
  obtain ⟨h1, h2, _, h4, h5⟩ :=
    gp_coloc itens C L alpha rng (demSum itens dem) dem k 0 p hp
  exact ⟨h1, h2, h4, h5⟩

theorem gerar_padrao_pairwise (itens : List Item) (dem : Demanda) (C L : ℕ)
    (alpha : ℚ) (rng : ℕ → ℕ) (k : ℕ) :
    List.Pairwise disjuntas (gerar_padrao itens dem C L alpha rng k).1 :=
  gp_pairwise itens C L alpha rng (demSum itens dem) dem k 0

theorem gerar_padrao_strict (itens : List Item) (dem : Demanda) (C L : ℕ)
    (alpha : ℚ) (rng : ℕ → ℕ) (k : ℕ)
    (h : (gerar_padrao itens dem C L alpha rng k).1 ≠ []) :
    demSum itens (gerar_padrao itens dem C L alpha rng k).2.1 < demSum itens dem :=
  gp_strict itens C L alpha rng (demSum itens dem) dem k 0 h

/-! ## Unfolding lemmas for the trial loop `gerar_placas_go` -/

theorem gerar_placas_go_sem (itens : List Item) (C L : ℕ) (alpha : ℚ)
    (rng : ℕ → ℕ) (fuel : ℕ) (dem : Demanda) (k : ℕ) (placas : List Padrao)
    (h : ¬ temDemanda itens dem = true) :
    gerar_placas_go itens C L alpha rng fuel dem k placas =
      Except.ok (placas, k) := by
  cases fuel with
  | zero =>
    rw [gerar_placas_go]
    rw [if_neg h]
  | succ fuel =>
    rw [gerar_placas_go]
    rw [if_neg h]

theorem gerar_placas_go_zero_tem (itens : List Item) (C L : ℕ) (alpha : ℚ)
    (rng : ℕ → ℕ) (dem : Demanda) (k : ℕ) (placas : List Padrao)
    (h : temDemanda itens dem = true) :
    gerar_placas_go itens C L alpha rng 0 dem k placas = Except.error () := by
  rw [gerar_placas_go]
  rw [if_pos h]

theorem gerar_placas_go_err (itens : List Item) (C L : ℕ) (alpha : ℚ)
    (rng : ℕ → ℕ) (fuel : ℕ) (dem : Demanda) (k : ℕ) (placas : List Padrao)
    (h : temDemanda itens dem = true)
    (hp : (gerar_padrao itens dem C L alpha rng k).1 = []) :
    gerar_placas_go itens C L alpha rng (fuel + 1) dem k placas =
      Except.error () := by
  rw [gerar_placas_go]
  simp only [if_pos h, hp, if_pos rfl, if_true]

theorem gerar_placas_go_passo (itens : List Item) (C L : ℕ) (alpha : ℚ)
    (rng : ℕ → ℕ) (fuel : ℕ) (dem : Demanda) (k : ℕ) (placas : List Padrao)
    (h : temDemanda itens dem = true)
    (hp : ¬ (gerar_padrao itens dem C L alpha rng k).1 = []) :
    gerar_placas_go itens C L alpha rng (fuel + 1) dem k placas =
      gerar_placas_go itens C L alpha rng fuel
        (gerar_padrao itens dem C L alpha rng k).2.1
        (gerar_padrao itens dem C L alpha rng k).2.2
        (placas ++ [(gerar_padrao itens dem C L alpha rng k).1]) := by
  rw [gerar_placas_go]
  simp only [if_pos h, if_neg hp]

/-! ## Invariants of the trial loop -/

theorem qtdPlacas_nil (id : ℕ) : qtdPlacas [] id = 0 := rfl

theorem qtdPlacas_append (p q : List Padrao) (id : ℕ) :
    qtdPlacas (p ++ q) id = qtdPlacas p id + qtdPlacas q id := by
  simp [qtdPlacas]

theorem qtdPlacas_um (pad : Padrao) (id : ℕ) :
    qtdPlacas [pad] id = qtdPadrao pad id := by
  simp [qtdPlacas]

theorem pl_ok_conserva (itens : List Item) (C L : ℕ) (alpha : ℚ) (rng : ℕ → ℕ) :
    ∀ (fuel : ℕ) (dem : Demanda) (k : ℕ) (placas out : List Padrao) (kf : ℕ),
      gerar_placas_go itens C L alpha rng fuel dem k placas =
        Except.ok (out, kf) →
      ∀ i ∈ itens, qtdPlacas out i.id = qtdPlacas placas i.id + dem i.id := by
  intro fuel
  induction fuel with
  | zero =>
    intro dem k placas out kf h i hi
    by_cases htd : temDemanda itens dem = true
    · rw [gerar_placas_go_zero_tem itens C L alpha rng dem k placas htd] at h
      cases h
    · rw [gerar_placas_go_sem itens C L alpha rng 0 dem k placas htd] at h
      have hz : dem i.id = 0 := by
        by_contra hc
        exact htd ((temDemanda_iff itens dem).mpr ⟨i, hi, by omega⟩)
      simp only [Except.ok.injEq, Prod.mk.injEq] at h
      rw [← h.1, hz]
      omega
  | succ fuel ih =>
    intro dem k placas out kf h i hi
    by_cases htd : temDemanda itens dem = true
    · by_cases hp : (gerar_padrao itens dem C L alpha rng k).1 = []
      · rw [gerar_placas_go_err itens C L alpha rng fuel dem k placas htd hp] at h
        cases h
      · rw [gerar_placas_go_passo itens C L alpha rng fuel dem k placas htd hp] at h
        have hih := ih _ _ _ _ _ h i hi
        have hcons := gerar_padrao_conserva itens dem C L alpha rng k i.id
        rw [qtdPlacas_append, qtdPlacas_um] at hih
        omega
    · rw [gerar_placas_go_sem itens C L alpha rng (fuel + 1) dem k placas htd] at h
      have hz : dem i.id = 0 := by
        by_contra hc
        exact htd ((temDemanda_iff itens dem).mpr ⟨i, hi, by omega⟩)
      simp only [Except.ok.injEq, Prod.mk.injEq] at h
      rw [← h.1, hz]
      omega

theorem pl_ok_geom (itens : List Item) (C L : ℕ) (alpha : ℚ) (rng : ℕ → ℕ) :
    ∀ (fuel : ℕ) (dem : Demanda) (k : ℕ) (placas out : List Padrao) (kf : ℕ),
      gerar_placas_go itens C L alpha rng fuel dem k placas =
        Except.ok (out, kf) →
      (∀ pad ∈ placas, ∀ p ∈ pad,
        p.item ∈ itens ∧ 1 ≤ p.qtd ∧ p.y + p.item.l ≤ L ∧
          p.x + p.qtd * p.item.c ≤ C) →
      (∀ pad ∈ placas, List.Pairwise disjuntas pad) →
      (∀ pad ∈ out, ∀ p ∈ pad,
        p.item ∈ itens ∧ 1 ≤ p.qtd ∧ p.y + p.item.l ≤ L ∧
          p.x + p.qtd * p.item.c ≤ C) ∧
        (∀ pad ∈ out, List.Pairwise disjuntas pad) := by
  intro fuel
  induction fuel with
  | zero =>
    intro dem k placas out kf h hmem hpw
    by_cases htd : temDemanda itens dem = true
    · rw [gerar_placas_go_zero_tem itens C L alpha rng dem k placas htd] at h
      cases h
    · rw [gerar_placas_go_sem itens C L alpha rng 0 dem k placas htd] at h
      simp only [Except.ok.injEq, Prod.mk.injEq] at h
      rw [← h.1]
      exact ⟨hmem, hpw⟩
  | succ fuel ih =>
    intro dem k placas out kf h hmem hpw
    by_cases htd : temDemanda itens dem = true
    · by_cases hp : (gerar_padrao itens dem C L alpha rng k).1 = []
      · rw [gerar_placas_go_err itens C L alpha rng fuel dem k placas htd hp] at h
        cases h
      · rw [gerar_placas_go_passo itens C L alpha rng fuel dem k placas htd hp] at h
        refine ih _ _ _ _ _ h ?_ ?_
        · intro pad hpad p hpcol
          rcases List.mem_append.mp hpad with hpad | hpad
          · exact hmem pad hpad p hpcol
          · rw [List.mem_singleton] at hpad
            subst hpad
            exact gerar_padrao_coloc itens dem C L alpha rng k p hpcol
        · intro pad hpad
          rcases List.mem_append.mp hpad with hpad | hpad
          · exact hpw pad hpad
          · rw [List.mem_singleton] at hpad
            subst hpad
            exact gerar_padrao_pairwise itens dem C L alpha rng k
    · rw [gerar_placas_go_sem itens C L alpha rng (fuel + 1) dem k placas htd] at h
      simp only [Except.ok.injEq, Prod.mk.injEq] at h
      rw [← h.1]
      exact ⟨hmem, hpw⟩

theorem pl_err_se_vazio (itens : List Item) (dem : Demanda) (C L : ℕ) (alpha : ℚ)
    (rng : ℕ → ℕ) (k : ℕ) (h : temDemanda itens dem = true)
    (hp : (gerar_padrao itens dem C L alpha rng k).1 = []) :
    gerar_placas itens dem C L alpha rng k = Except.error () := by
  unfold gerar_placas
  obtain ⟨f, hf⟩ : ∃ f, demSum itens dem = f + 1 := by
    have := temDemanda_demSum itens dem h
    exact ⟨demSum itens dem - 1, by omega⟩
  rw [hf]
  exact gerar_placas_go_err itens C L alpha rng f dem k [] h hp

/-! ## Preservation of the demand of identifiers that can never be placed -/

theorem cf_preserva (itens : List Item) (C alt : ℕ) (alpha : ℚ) (rng : ℕ → ℕ)
    (j : ℕ) (hj : ∀ i ∈ itens, i.id = j → ¬ (i.c ≤ C ∧ i.l ≤ alt)) :
    ∀ (fuel : ℕ) (dem : Demanda) (k x : ℕ),
      (criar_faixa_go itens C alt alpha rng fuel dem k x).2.1 j = dem j := by
  intro fuel
  induction fuel with
  | zero =>
    intro dem k x
    rw [criar_faixa_go_zero]
  | succ fuel ih =>
    intro dem k x
    by_cases hx : x < C
    · by_cases hv : viaveis itens dem C x alt = []
      · rw [criar_faixa_go_nil itens C alt alpha rng fuel dem k x hx hv]
      · cases hesc : escolher (lrc (viaveis itens dem C x alt) alpha) (rng k) with
        | none => rw [criar_faixa_go_none itens C alt alpha rng fuel dem k x hx hv hesc]
        | some item =>
          by_cases hq : min (dem item.id) ((C - x) / item.c) = 0
          · rw [criar_faixa_go_qtd0 itens C alt alpha rng fuel dem k x hx hv hesc hq]
          · rw [criar_faixa_go_passo itens C alt alpha rng fuel dem k x hx hv hesc hq]
            dsimp only
            rw [ih]
            have hmem : item ∈ viaveis itens dem C x alt :=
              (mem_lrc.mp (escolher_mem hesc)).1
            obtain ⟨hmi, _, hwc, hlc⟩ := mem_viaveis.mp hmem
            have hne : item.id ≠ j := by
              intro he
              exact hj item hmi he ⟨by omega, hlc⟩
            exact updDemanda_other dem item.id _ j fun he => hne he.symm
    · rw [criar_faixa_go_nlt itens C alt alpha rng (fuel + 1) dem k x hx]

theorem gp_preserva (itens : List Item) (C L : ℕ) (alpha : ℚ) (rng : ℕ → ℕ)
    (j : ℕ) (hj : ∀ i ∈ itens, i.id = j → ¬ (i.c ≤ C ∧ i.l ≤ L)) :
    ∀ (fuel : ℕ) (dem : Demanda) (k y : ℕ),
      (gerar_padrao_go itens C L alpha rng fuel dem k y).2.1 j = dem j := by
  intro fuel
  induction fuel with
  | zero =>
    intro dem k y
    rw [gerar_padrao_go_zero]
  | succ fuel ih =>
    intro dem k y
    by_cases h : y < L ∧ temDemanda itens dem = true
    · have hj' : ∀ i ∈ itens, i.id = j → ¬ (i.c ≤ C ∧ i.l ≤ L - y) := by
        intro i hi hij ⟨h1, h2⟩
        exact hj i hi hij ⟨h1, by omega⟩
      by_cases hf : (criar_faixa itens dem C (L - y) alpha rng k).1 = []
      · rw [gerar_padrao_go_vazia itens C L alpha rng fuel dem k y h hf]
        exact cf_preserva itens C (L - y) alpha rng j hj' C dem k 0
      · rw [gerar_padrao_go_passo itens C L alpha rng fuel dem k y h hf]
        dsimp only
        rw [ih]
        exact cf_preserva itens C (L - y) alpha rng j hj' C dem k 0
    · rw [gerar_padrao_go_para itens C L alpha rng (fuel + 1) dem k y h]

theorem pl_ok_impossivel (itens : List Item) (C L : ℕ) (alpha : ℚ) (rng : ℕ → ℕ)
    (j : ℕ) (hj : ∀ i ∈ itens, i.id = j → ¬ (i.c ≤ C ∧ i.l ≤ L)) :
    ∀ (fuel : ℕ) (dem : Demanda) (k : ℕ) (placas : List Padrao)
      (r : List Padrao × ℕ),
      gerar_placas_go itens C L alpha rng fuel dem k placas = Except.ok r →
      ∀ i₀ ∈ itens, i₀.id = j → dem j = 0 := by
  intro fuel
  induction fuel with
  | zero =>
    intro dem k placas r h i₀ hi₀ hij
    by_cases htd : temDemanda itens dem = true
    · rw [gerar_placas_go_zero_tem itens C L alpha rng dem k placas htd] at h
      cases h
    · rw [gerar_placas_go_sem itens C L alpha rng 0 dem k placas htd] at h
      by_contra hc
      exact htd ((temDemanda_iff itens dem).mpr ⟨i₀, hi₀, by rw [hij]; omega⟩)
  | succ fuel ih =>
    intro dem k placas r h i₀ hi₀ hij
    by_cases htd : temDemanda itens dem = true
    · by_cases hp : (gerar_padrao itens dem C L alpha rng k).1 = []
      · rw [gerar_placas_go_err itens C L alpha rng fuel dem k placas htd hp] at h
        cases h
      · rw [gerar_placas_go_passo itens C L alpha rng fuel dem k placas htd hp] at h
        have hpres : (gerar_padrao itens dem C L alpha rng k).2.1 j = dem j :=
          gp_preserva itens C L alpha rng j hj (demSum itens dem) dem k 0
        have := ih _ _ _ _ h i₀ hi₀ hij
        rw [hpres] at this
        exact this
    · rw [gerar_placas_go_sem itens C L alpha rng (fuel + 1) dem k placas htd] at h
      by_contra hc
      exact htd ((temDemanda_iff itens dem).mpr ⟨i₀, hi₀, by rw [hij]; omega⟩)

/-! ## The initial demand dictionary -/

theorem foldl_upd_fora (itens : List Item) (acc : Demanda) (j : ℕ)
    (hj : j ∉ itens.map Item.id) :
    itens.foldl (fun dem i => updDemanda dem i.id i.d) acc j = acc j := by
  induction itens generalizing acc with
  | nil => rfl
  | cons a rest ih =>
    simp only [List.map_cons, List.mem_cons] at hj
    push_neg at hj
    simp only [List.foldl_cons]
    rw [ih _ hj.2]
    exact updDemanda_other acc a.id a.d j hj.1

theorem demandaInicial_eq (itens : List Item) (hnd : (itens.map Item.id).Nodup)
    {i : Item} (hi : i ∈ itens) : demandaInicial itens i.id = i.d := by
  unfold demandaInicial
  generalize (fun _ => 0 : Demanda) = acc
  induction itens generalizing acc with
  | nil => cases hi
  | cons a rest ih =>
    simp only [List.map_cons, List.nodup_cons] at hnd
    simp only [List.foldl_cons]
    rcases List.mem_cons.mp hi with rfl | hi
    · rw [foldl_upd_fora rest _ i.id hnd.1]
      exact updDemanda_same acc i.id i.d
    · exact ih hnd.2 hi _

theorem demandaInicial_zero (itens : List Item) (h : ∀ i ∈ itens, i.d = 0)
    (id : ℕ) : demandaInicial itens id = 0 := by
  unfold demandaInicial
  have haux : ∀ (l : List Item) (acc : Demanda), (∀ i ∈ l, i.d = 0) →
      (∀ j, acc j = 0) → l.foldl (fun dem i => updDemanda dem i.id i.d) acc id = 0 := by
    intro l
    induction l with
    | nil => intro acc _ hacc; exact hacc id
    | cons a rest ih =>
      intro acc hl hacc
      simp only [List.foldl_cons]
      refine ih _ (fun i hi => hl i (List.mem_cons_of_mem a hi)) ?_
      intro j
      unfold updDemanda
      by_cases hja : j = a.id
      · rw [if_pos hja]
        exact hl a (List.mem_cons_self a rest)
      · rw [if_neg hja]
        exact hacc j
  exact haux itens _ h fun _ => rfl

/-! ## Unfolding lemmas for the driver loop -/

theorem resolver_go_zero (itens : List Item) (C L : ℕ) (alphas : ℕ → ℚ)
    (shuffle : ℕ → List Item → List Item) (rng : ℕ → ℕ) (it k : ℕ)
    (melhor : Melhor) :
    resolver_go itens C L alphas shuffle rng 0 it k melhor = Except.ok melhor := by
  rw [resolver_go]

theorem resolver_go_err (itens : List Item) (C L : ℕ) (alphas : ℕ → ℚ)
    (shuffle : ℕ → List Item → List Item) (rng : ℕ → ℕ) (restantes it k : ℕ)
    (melhor : Melhor) (e : Unit)
    (h : gerar_placas (shuffle it itens) (demandaInicial itens) C L (alphas it)
      rng k = Except.error e) :
    resolver_go itens C L alphas shuffle rng (restantes + 1) it k melhor =
      Except.error e := by
  rw [resolver_go]
  simp only [h]

theorem resolver_go_passo (itens : List Item) (C L : ℕ) (alphas : ℕ → ℚ)
    (shuffle : ℕ → List Item → List Item) (rng : ℕ → ℕ) (restantes it k : ℕ)
    (melhor : Melhor) (placas : List Padrao) (kf : ℕ)
    (h : gerar_placas (shuffle it itens) (demandaInicial itens) C L (alphas it)
      rng k = Except.ok (placas, kf)) :
    resolver_go itens C L alphas shuffle rng (restantes + 1) it k melhor =
      resolver_go itens C L alphas shuffle rng restantes (it + 1) kf
        (atualizar_melhor melhor placas
          (aproveitamentoDe (area_total_itens itens) C L placas.length)) := by
  rw [resolver_go]
  simp only [h]

/-! ## Grouping placed quantities by catalog item -/

theorem sum_map_add {α : Type} (l : List α) (f g : α → ℕ) :
    (l.map fun a => f a + g a).sum = (l.map f).sum + (l.map g).sum := by
  induction l with
  | nil => rfl
  | cons b l ih =>
    simp only [List.map_cons, List.sum_cons, ih]
    omega

theorem qtdPadrao_cons (p : Colocacao) (rest : Padrao) (id : ℕ) :
    qtdPadrao (p :: rest) id =
      (if p.item.id = id then p.qtd else 0) + qtdPadrao rest id := by
  simp [qtdPadrao]

theorem qtdPlacas_cons (pad : Padrao) (rest : List Padrao) (id : ℕ) :
    qtdPlacas (pad :: rest) id = qtdPadrao pad id + qtdPlacas rest id := by
  simp [qtdPlacas]

theorem areaPadrao_nil : areaPadrao [] = 0 := rfl

theorem areaPadrao_cons (p : Colocacao) (rest : Padrao) :
    areaPadrao (p :: rest) = p.qtd * p.item.area + areaPadrao rest := by
  simp [areaPadrao]

theorem areaPlacas_nil : areaPlacas [] = 0 := rfl

theorem areaPlacas_cons (pad : Padrao) (rest : List Padrao) :
    areaPlacas (pad :: rest) = areaPadrao pad + areaPlacas rest := by
  simp [areaPlacas]

theorem sum_indicador (itens : List Item) (hnd : (itens.map Item.id).Nodup)
    {j : Item} (hj : j ∈ itens) (q : ℕ) :
    (itens.map fun i => (if j.id = i.id then q else 0) * i.area).sum =
      q * j.area := by
  induction itens with
  | nil => cases hj
  | cons a rest ih =>
    simp only [List.map_cons, List.nodup_cons] at hnd
    simp only [List.map_cons, List.sum_cons]
    rcases List.mem_cons.mp hj with rfl | hj
    · rw [if_pos rfl]
      have hz : (rest.map fun i => (if j.id = i.id then q else 0) * i.area).sum = 0 := by
        apply List.sum_eq_zero
        intro x hx
        simp only [List.mem_map] at hx
        obtain ⟨i, hi, rfl⟩ := hx
        have : j.id ≠ i.id := by
          intro he
          exact hnd.1 (he ▸ List.mem_map_of_mem Item.id hi)
        rw [if_neg this, Nat.zero_mul]
      omega
    · have hne : j.id ≠ a.id := by
        intro he
        exact hnd.1 (he ▸ List.mem_map_of_mem Item.id hj)
      rw [if_neg fun he => hne he, Nat.zero_mul, ih hnd.2 hj, Nat.zero_add]

theorem areaPadrao_grupo (itens : List Item) (hnd : (itens.map Item.id).Nodup)
    (pad : Padrao) (hmem : ∀ p ∈ pad, p.item ∈ itens) :
    areaPadrao pad = (itens.map fun i => qtdPadrao pad i.id * i.area).sum := by
  induction pad with
  | nil =>
    rw [areaPadrao_nil]
    symm
    apply List.sum_eq_zero
    intro x hx
    simp only [List.mem_map] at hx
    obtain ⟨i, _, rfl⟩ := hx
    rw [qtdPadrao_nil, Nat.zero_mul]
  | cons p rest ih =>
    rw [areaPadrao_cons]
    have hrw : (itens.map fun i => qtdPadrao (p :: rest) i.id * i.area) =
        itens.map fun i =>
          (if p.item.id = i.id then p.qtd else 0) * i.area +
            qtdPadrao rest i.id * i.area := by
      apply List.map_congr_left
      intro i _
      rw [qtdPadrao_cons, Nat.add_mul]
    rw [hrw, sum_map_add,
      sum_indicador itens hnd (hmem p (List.mem_cons_self p rest)) p.qtd,
      ih fun x hx => hmem x (List.mem_cons_of_mem p hx)]

theorem areaPlacas_grupo (itens : List Item) (hnd : (itens.map Item.id).Nodup)
    (placas : List Padrao) (hmem : ∀ pad ∈ placas, ∀ p ∈ pad, p.item ∈ itens) :
    areaPlacas placas = (itens.map fun i => qtdPlacas placas i.id * i.area).sum := by
  induction placas with
  | nil =>
    rw [areaPlacas_nil]
    symm
    apply List.sum_eq_zero
    intro x hx
    simp only [List.mem_map] at hx
    obtain ⟨i, _, rfl⟩ := hx
    rw [qtdPlacas_nil, Nat.zero_mul]
  | cons pad rest ih =>
    rw [areaPlacas_cons]
    have hrw : (itens.map fun i => qtdPlacas (pad :: rest) i.id * i.area) =
        itens.map fun i =>
          qtdPadrao pad i.id * i.area + qtdPlacas rest i.id * i.area := by
      apply List.map_congr_left
      intro i _
      rw [qtdPlacas_cons, Nat.add_mul]
    rw [hrw, sum_map_add,
      ← areaPadrao_grupo itens hnd pad (hmem pad (List.mem_cons_self pad rest)),
      ih fun x hx => hmem x (List.mem_cons_of_mem pad hx)]

theorem area_total_por_id (itens : List Item) (hnd : (itens.map Item.id).Nodup) :
    area_total_itens itens =
      (itens.map fun i => demandaInicial itens i.id * i.area).sum := by
  unfold area_total_itens
  congr 1
  apply List.map_congr_left
  intro i hi
  rw [demandaInicial_eq itens hnd hi, Nat.mul_comm]

/-! ## Trial-level lemmas for the wrapper `gerar_placas` -/

theorem gerar_placas_ok_conserva (itensIt : List Item) (dem : Demanda) (C L : ℕ)
    (alpha : ℚ) (rng : ℕ → ℕ) (k : ℕ) (placas : List Padrao) (kf : ℕ)
    (h : gerar_placas itensIt dem C L alpha rng k = Except.ok (placas, kf)) :
    ∀ i ∈ itensIt, qtdPlacas placas i.id = dem i.id := by
  unfold gerar_placas at h
  intro i hi
  have := pl_ok_conserva itensIt C L alpha rng (demSum itensIt dem) dem k []
    placas kf h i hi
  simpa [qtdPlacas_nil] using this

theorem gerar_placas_ok_geom (itensIt : List Item) (dem : Demanda) (C L : ℕ)
    (alpha : ℚ) (rng : ℕ → ℕ) (k : ℕ) (placas : List Padrao) (kf : ℕ)
    (h : gerar_placas itensIt dem C L alpha rng k = Except.ok (placas, kf)) :
    (∀ pad ∈ placas, ∀ p ∈ pad,
      p.item ∈ itensIt ∧ 1 ≤ p.qtd ∧ p.y + p.item.l ≤ L ∧
        p.x + p.qtd * p.item.c ≤ C) ∧
      ∀ pad ∈ placas, List.Pairwise disjuntas pad := by
  unfold gerar_placas at h
  exact pl_ok_geom itensIt C L alpha rng (demSum itensIt dem) dem k [] placas kf h
    (by intro pad hpad; cases hpad) (by intro pad hpad; cases hpad)

theorem gerar_placas_impossivel (itensIt : List Item) (dem : Demanda) (C L : ℕ)
    (alpha : ℚ) (rng : ℕ → ℕ) (k : ℕ) (j : ℕ)
    (hj : ∀ i ∈ itensIt, i.id = j → ¬ (i.c ≤ C ∧ i.l ≤ L))
    (i₀ : Item) (hi₀ : i₀ ∈ itensIt) (hij : i₀.id = j) (hdem : dem j ≠ 0) :
    gerar_placas itensIt dem C L alpha rng k = Except.error () := by
  cases hres : gerar_placas itensIt dem C L alpha rng k with
  | error e => rfl
  | ok r =>
    unfold gerar_placas at hres
    exact absurd
      (pl_ok_impossivel itensIt C L alpha rng j hj _ dem k [] r hres i₀ hi₀ hij)
      hdem

/-! ## The driver preserves any property of the accepted trials -/

theorem rg_inv (itens : List Item) (C L : ℕ) (alphas : ℕ → ℚ)
    (shuffle : ℕ → List Item → List Item) (rng : ℕ → ℕ)
    (Q : List Padrao → ℚ → Prop)
    (hQ : ∀ (it k : ℕ) (placas : List Padrao) (kf : ℕ),
      gerar_placas (shuffle it itens) (demandaInicial itens) C L (alphas it)
        rng k = Except.ok (placas, kf) →
      Q placas (aproveitamentoDe (area_total_itens itens) C L placas.length)) :
    ∀ (restantes it k : ℕ) (melhor m' : Melhor),
      resolver_go itens C L alphas shuffle rng restantes it k melhor =
        Except.ok m' →
      (∀ placas, melhor.1 = some placas → Q placas melhor.2.1) →
      ∀ placas, m'.1 = some placas → Q placas m'.2.1 := by
  intro restantes
  induction restantes with
  | zero =>
    intro it k melhor m' h hinv
    rw [resolver_go_zero] at h
    simp only [Except.ok.injEq] at h
    subst h
    exact hinv
  | succ restantes ih =>
    intro it k melhor m' h hinv
    cases htr : gerar_placas (shuffle it itens) (demandaInicial itens) C L
      (alphas it) rng k with
    | error e =>
      rw [resolver_go_err itens C L alphas shuffle rng restantes it k melhor e htr]
        at h
      cases h
    | ok pr =>
      obtain ⟨placas0, kf⟩ := pr
      rw [resolver_go_passo itens C L alphas shuffle rng restantes it k melhor
        placas0 kf htr] at h
      refine ih _ _ _ _ h ?_
      intro placas hpl
      by_cases hcond : melhor.2.1 <
          aproveitamentoDe (area_total_itens itens) C L placas0.length ∨
          (isclose (aproveitamentoDe (area_total_itens itens) C L placas0.length)
              melhor.2.1 ∧
            (placas0.length : ℕ∞) < melhor.2.2)
      · unfold atualizar_melhor at hpl ⊢
        rw [if_pos hcond] at hpl ⊢
        dsimp only at hpl ⊢
        injection hpl with hpl
        subst hpl
        exact hQ it k placas0 kf htr
      · unfold atualizar_melhor at hpl ⊢
        rw [if_neg hcond] at hpl ⊢
        exact hinv placas hpl

theorem trial_util (itens itensIt : List Item) (C L : ℕ) (alpha : ℚ)
    (rng : ℕ → ℕ) (hperm : itensIt.Perm itens)
    (hnd : (itens.map Item.id).Nodup) (placas : List Padrao) (k kf : ℕ)
    (h : gerar_placas itensIt (demandaInicial itens) C L alpha rng k =
      Except.ok (placas, kf)) :
    aproveitamentoDe (area_total_itens itens) C L placas.length =
      aproveitamentoRecalculado C L placas := by
  have hcons : ∀ i ∈ itens, qtdPlacas placas i.id = demandaInicial itens i.id :=
    fun i hi => gerar_placas_ok_conserva itensIt _ C L alpha rng k placas kf h i
      (hperm.mem_iff.mpr hi)
  have hmem : ∀ pad ∈ placas, ∀ p ∈ pad, p.item ∈ itens := by
    intro pad hpad p hpc
    exact hperm.mem_iff.mp
      ((gerar_placas_ok_geom itensIt _ C L alpha rng k placas kf h).1 pad hpad
        p hpc).1
  have harea : areaPlacas placas = area_total_itens itens := by
    rw [areaPlacas_grupo itens hnd placas hmem, area_total_por_id itens hnd]
    congr 1
    apply List.map_congr_left
    intro i hi
    rw [hcons i hi]
  unfold aproveitamentoDe aproveitamentoRecalculado
  by_cases hpos : 0 < placas.length * C * L
  · rw [if_pos hpos, harea, Rat.divInt_eq_div]
    push_cast
    rfl
  · rw [if_neg hpos]
    have hz : placas.length * C * L = 0 := by omega
    rw [hz]
    simp

/-! ## Further helper lemmas for the claims -/

theorem id_inj (itens : List Item) (hnd : (itens.map Item.id).Nodup)
    {a b : Item} (ha : a ∈ itens) (hb : b ∈ itens) (hid : a.id = b.id) : a = b := by
  induction itens with
  | nil => cases ha
  | cons c rest ih =>
    simp only [List.map_cons, List.nodup_cons] at hnd
    rcases List.mem_cons.mp ha with rfl | ha'
    · rcases List.mem_cons.mp hb with rfl | hb'
      · rfl
      · refine absurd ?_ hnd.1
        rw [hid]
        exact List.mem_map_of_mem Item.id hb'
    · rcases List.mem_cons.mp hb with rfl | hb'
      · refine absurd ?_ hnd.1
        rw [← hid]
        exact List.mem_map_of_mem Item.id ha'
      · exact ih hnd.2 ha' hb'

theorem isclose_self (a : ℚ) : isclose a a := by
  unfold isclose
  rw [sub_self, abs_zero]
  positivity

theorem aproveitamentoDe_trivial (a C L : ℕ) : aproveitamentoDe a C L 0 = 0 := by
  unfold aproveitamentoDe
  rw [if_neg]
  omega

theorem resolver_ok_inv (itens : List Item) (C L : ℕ) (max_iter : ℤ)
    (alphas : ℕ → ℚ) (shuffle : ℕ → List Item → List Item) (rng : ℕ → ℕ)
    (Q : List Padrao → ℚ → Prop)
    (hQ : ∀ (it k : ℕ) (placas : List Padrao) (kf : ℕ),
      gerar_placas (shuffle it itens) (demandaInicial itens) C L (alphas it)
        rng k = Except.ok (placas, kf) →
      Q placas (aproveitamentoDe (area_total_itens itens) C L placas.length))
    (placas : List Padrao) (u : ℚ)
    (h : resolver_pcebg itens C L max_iter alphas shuffle rng =
      Except.ok (some placas, u)) :
    Q placas u := by
  unfold resolver_pcebg at h
  cases hr : resolver_go itens C L alphas shuffle rng max_iter.toNat 0 0
    (none, 0, ⊤) with
  | error e =>
    rw [hr] at h
    cases h
  | ok m' =>
    rw [hr] at h
    simp only [Except.map, Except.ok.injEq, Prod.mk.injEq] at h
    have hres := rg_inv itens C L alphas shuffle rng Q hQ max_iter.toNat 0 0 _ m' hr
      (by intro pl hpl; exact Option.noConfusion hpl)
    obtain ⟨h1, h2⟩ := h
    rw [← h2]
    exact hres placas h1

/-! ## Claim theorems -/

/-- C1: for every Solution returned by `resolver_pcebg` and every item of the
catalog, the total quantity placed across all plates equals the item's
original demand exactly. -/
theorem C1_demanda_exata (itens : List Item) (C L : ℕ) (max_iter : ℤ)
    (alphas : ℕ → ℚ) (shuffle : ℕ → List Item → List Item) (rng : ℕ → ℕ)
    (hnd : (itens.map Item.id).Nodup)
    (hsh : ∀ n, (shuffle n itens).Perm itens)
    (placas : List Padrao) (u : ℚ)
    (h : resolver_pcebg itens C L max_iter alphas shuffle rng =
      Except.ok (some placas, u)) :
    ∀ i ∈ itens, qtdPlacas placas i.id = i.d := by
  refine resolver_ok_inv itens C L max_iter alphas shuffle rng
    (fun pl _ => ∀ i ∈ itens, qtdPlacas pl i.id = i.d) ?_ placas u h
  intro it k placas0 kf htr i hi
  have hq := gerar_placas_ok_conserva (shuffle it itens) (demandaInicial itens)
    C L (alphas it) rng k placas0 kf htr i ((hsh it).mem_iff.mpr hi)
  rw [hq]
  exact demandaInicial_eq itens hnd hi

/-- Witness for C1 on a concrete instance. -/
theorem C1_demanda_exata_witness :
    ([(⟨1, 2, 2, 1⟩ : Item)].map Item.id).Nodup ∧
    (∀ n : ℕ, ((fun _ l => l : ℕ → List Item → List Item) n
      [(⟨1, 2, 2, 1⟩ : Item)]).Perm [(⟨1, 2, 2, 1⟩ : Item)]) ∧
    resolver_pcebg [(⟨1, 2, 2, 1⟩ : Item)] 2 2 1 (fun _ => 1) (fun _ l => l)
      (fun _ => 0) =
      Except.ok (some [[⟨⟨1, 2, 2, 1⟩, 1, 0, 0⟩]], 1) ∧
    ∀ i ∈ [(⟨1, 2, 2, 1⟩ : Item)],
      qtdPlacas [[⟨⟨1, 2, 2, 1⟩, 1, 0, 0⟩]] i.id = i.d :=
  ⟨by decide, fun _ => List.Perm.refl _, by decide,
    C1_demanda_exata [⟨1, 2, 2, 1⟩] 2 2 1 (fun _ => 1) (fun _ l => l) (fun _ => 0)
      (by decide) (fun _ => List.Perm.refl _) [[⟨⟨1, 2, 2, 1⟩, 1, 0, 0⟩]] 1
      (by decide)⟩

/-- C2: in every plate of a returned Solution every placement lies within
the plate bounds and no two placements of the same plate overlap. -/
theorem C2_limites_sem_sobreposicao (itens : List Item) (C L : ℕ)
    (max_iter : ℤ) (alphas : ℕ → ℚ) (shuffle : ℕ → List Item → List Item)
    (rng : ℕ → ℕ) (placas : List Padrao) (u : ℚ)
    (h : resolver_pcebg itens C L max_iter alphas shuffle rng =
      Except.ok (some placas, u)) :
    ∀ pad ∈ placas,
      (∀ p ∈ pad, p.x + p.qtd * p.item.c ≤ C ∧ p.y + p.item.l ≤ L) ∧
        List.Pairwise disjuntas pad := by
  refine resolver_ok_inv itens C L max_iter alphas shuffle rng
    (fun pl _ => ∀ pad ∈ pl,
      (∀ p ∈ pad, p.x + p.qtd * p.item.c ≤ C ∧ p.y + p.item.l ≤ L) ∧
        List.Pairwise disjuntas pad) ?_ placas u h
  intro it k placas0 kf htr pad hpad
  have hg := gerar_placas_ok_geom (shuffle it itens) (demandaInicial itens) C L
    (alphas it) rng k placas0 kf htr
  exact ⟨fun p hp => ⟨(hg.1 pad hpad p hp).2.2.2, (hg.1 pad hpad p hp).2.2.1⟩,
    hg.2 pad hpad⟩

/-- Witness for C2 on a concrete instance. -/
theorem C2_limites_sem_sobreposicao_witness :
    resolver_pcebg [(⟨1, 2, 2, 1⟩ : Item)] 2 2 1 (fun _ => 1) (fun _ l => l)
      (fun _ => 0) =
      Except.ok (some [[⟨⟨1, 2, 2, 1⟩, 1, 0, 0⟩]], 1) ∧
    ∀ pad ∈ [[(⟨⟨1, 2, 2, 1⟩, 1, 0, 0⟩ : Colocacao)]],
      (∀ p ∈ pad, p.x + p.qtd * p.item.c ≤ 2 ∧ p.y + p.item.l ≤ 2) ∧
        List.Pairwise disjuntas pad :=
  ⟨by decide,
    C2_limites_sem_sobreposicao [⟨1, 2, 2, 1⟩] 2 2 1 (fun _ => 1) (fun _ l => l)
      (fun _ => 0) [[⟨⟨1, 2, 2, 1⟩, 1, 0, 0⟩]] 1 (by decide)⟩

/-- C3: when the pattern builder returns an empty plate while demand remains,
the trial loop raises the infeasibility error; the driver then aborts the
whole run with that error (the abort strategy, applied in every trial); and
a returned Solution never has unplaced demand. -/
theorem C3_infeasibilidade_aborta (itens : List Item) (C L : ℕ) (max_iter : ℤ)
    (alphas : ℕ → ℚ) (shuffle : ℕ → List Item → List Item) (rng : ℕ → ℕ)
    (hsh : ∀ n, (shuffle n itens).Perm itens) :
    (∀ (itensIt : List Item) (dem : Demanda) (alpha : ℚ) (k : ℕ),
      temDemanda itensIt dem = true →
      (gerar_padrao itensIt dem C L alpha rng k).1 = [] →
      gerar_placas itensIt dem C L alpha rng k = Except.error ()) ∧
    (∀ (restantes it k : ℕ) (melhor : Melhor),
      gerar_placas (shuffle it itens) (demandaInicial itens) C L (alphas it)
        rng k = Except.error () →
      resolver_go itens C L alphas shuffle rng (restantes + 1) it k melhor =
        Except.error ()) ∧
    (∀ (placas : List Padrao) (u : ℚ),
      resolver_pcebg itens C L max_iter alphas shuffle rng =
        Except.ok (some placas, u) →
      ∀ i ∈ itens, qtdPlacas placas i.id = demandaInicial itens i.id) := by
  refine ⟨?_, ?_, ?_⟩
  · intro itensIt dem alpha k htd hp
    exact pl_err_se_vazio itensIt dem C L alpha rng k htd hp
  · intro restantes it k melhor herr
    exact resolver_go_err itens C L alphas shuffle rng restantes it k melhor () herr
  · intro placas u h
    refine resolver_ok_inv itens C L max_iter alphas shuffle rng
      (fun pl _ => ∀ i ∈ itens, qtdPlacas pl i.id = demandaInicial itens i.id)
      ?_ placas u h
    intro it k placas0 kf htr i hi
    exact gerar_placas_ok_conserva (shuffle it itens) (demandaInicial itens) C L
      (alphas it) rng k placas0 kf htr i ((hsh it).mem_iff.mpr hi)

/-- Witness for C3 on a concrete instance: an item of width 11 cannot be
placed on a 10 × 10 plate, the pattern builder yields an empty plate, the
trial errors and the driver aborts. -/
theorem C3_infeasibilidade_aborta_witness :
    temDemanda [(⟨1, 11, 5, 1⟩ : Item)]
      (demandaInicial [(⟨1, 11, 5, 1⟩ : Item)]) = true ∧
    (gerar_padrao [(⟨1, 11, 5, 1⟩ : Item)]
      (demandaInicial [(⟨1, 11, 5, 1⟩ : Item)]) 10 10 1 (fun _ => 0) 0).1 = [] ∧
    gerar_placas [(⟨1, 11, 5, 1⟩ : Item)]
      (demandaInicial [(⟨1, 11, 5, 1⟩ : Item)]) 10 10 1 (fun _ => 0) 0 =
      Except.error () ∧
    resolver_go [(⟨1, 11, 5, 1⟩ : Item)] 10 10 (fun _ => 1) (fun _ l => l)
      (fun _ => 0) 1 0 0 (none, 0, ⊤) = Except.error () :=
  ⟨by decide, by decide,
    (C3_infeasibilidade_aborta [⟨1, 11, 5, 1⟩] 10 10 1 (fun _ => 1)
      (fun _ l => l) (fun _ => 0) (fun _ => List.Perm.refl _)).1
      [⟨1, 11, 5, 1⟩] (demandaInicial [⟨1, 11, 5, 1⟩]) 1 0 (by decide) (by decide),
    (C3_infeasibilidade_aborta [⟨1, 11, 5, 1⟩] 10 10 1 (fun _ => 1)
      (fun _ l => l) (fun _ => 0) (fun _ => List.Perm.refl _)).2.1 0 0 0
      (none, 0, ⊤)
      ((C3_infeasibilidade_aborta [⟨1, 11, 5, 1⟩] 10 10 1 (fun _ => 1)
        (fun _ l => l) (fun _ => 0) (fun _ => List.Perm.refl _)).1
        [⟨1, 11, 5, 1⟩] (demandaInicial [⟨1, 11, 5, 1⟩]) 1 0 (by decide)
        (by decide))⟩

/-- C4, counterexample: the claim demands an eager InvalidInstance check
before any trial, but an item of width 11 > C = 10 with demand 0 produces a
normally returned Solution and no error at all. -/
theorem C4_contraexemplo :
    (10 < 11) ∧
    resolver_pcebg [(⟨1, 11, 5, 0⟩ : Item)] 10 10 1 (fun _ => 1) (fun _ l => l)
      (fun _ => 0) = Except.ok (some [], 0) := by
  constructor
  · decide
  · decide

/-- C4, amended: there is no eager check; an oversized item whose demand is
positive makes the first trial raise the `ValueError` (after the trial has
already started), which aborts the run; an oversized item with demand 0
triggers no error. -/
theorem C4_amended (itens : List Item) (C L : ℕ) (max_iter : ℤ)
    (alphas : ℕ → ℚ) (shuffle : ℕ → List Item → List Item) (rng : ℕ → ℕ)
    (hnd : (itens.map Item.id).Nodup)
    (hsh : ∀ n, (shuffle n itens).Perm itens)
    (i₀ : Item) (hi₀ : i₀ ∈ itens) (hd : 0 < i₀.d)
    (hover : C < i₀.c ∨ L < i₀.l) (hmi : 1 ≤ max_iter) :
    resolver_pcebg itens C L max_iter alphas shuffle rng = Except.error () := by
  unfold resolver_pcebg
  obtain ⟨r, hr⟩ : ∃ r, max_iter.toNat = r + 1 := by
    refine ⟨max_iter.toNat - 1, ?_⟩
    omega
  rw [hr]
  have htr : gerar_placas (shuffle 0 itens) (demandaInicial itens) C L
      (alphas 0) rng 0 = Except.error () := by
    refine gerar_placas_impossivel (shuffle 0 itens) (demandaInicial itens) C L
      (alphas 0) rng 0 i₀.id ?_ i₀ ((hsh 0).mem_iff.mpr hi₀) rfl ?_
    · intro i hi hij hfit
      have hieq : i = i₀ := id_inj itens hnd ((hsh 0).mem_iff.mp hi) hi₀ hij
      subst hieq
      rcases hover with hover | hover
      · omega
      · omega
    · rw [demandaInicial_eq itens hnd hi₀]
      omega
  rw [resolver_go_err itens C L alphas shuffle rng r 0 0 (none, 0, ⊤) () htr]
  rfl

/-- Witness for the amended C4. -/
theorem C4_amended_witness :
    (([(⟨1, 11, 5, 1⟩ : Item)].map Item.id).Nodup) ∧
    ((10 : ℕ) < 11) ∧
    resolver_pcebg [(⟨1, 11, 5, 1⟩ : Item)] 10 10 1 (fun _ => 1) (fun _ l => l)
      (fun _ => 0) = Except.error () :=
  ⟨by decide, by decide,
    C4_amended [⟨1, 11, 5, 1⟩] 10 10 1 (fun _ => 1) (fun _ l => l) (fun _ => 0)
      (by decide) (fun _ => List.Perm.refl _) ⟨1, 11, 5, 1⟩ (by decide)
      (by decide) (Or.inl (by decide)) (by decide)⟩

/-- C6: one driver step replaces the current best exactly when the
specification's acceptance rule `aceita` holds (utilization strictly
greater, or equal within floating tolerance with strictly fewer plates);
in every other case the earlier best is kept unchanged. -/
theorem C6_regra_aceitacao (itens : List Item) (C L : ℕ) (alphas : ℕ → ℚ)
    (shuffle : ℕ → List Item → List Item) (rng : ℕ → ℕ)
    (restantes it k : ℕ) (melhor : Melhor) (placas : List Padrao) (kf : ℕ)
    (htr : gerar_placas (shuffle it itens) (demandaInicial itens) C L
      (alphas it) rng k = Except.ok (placas, kf)) :
    resolver_go itens C L alphas shuffle rng (restantes + 1) it k melhor =
      resolver_go itens C L alphas shuffle rng restantes (it + 1) kf
        (if aceita melhor.2.1 melhor.2.2
            (aproveitamentoDe (area_total_itens itens) C L placas.length)
            placas.length then
          (some placas, aproveitamentoDe (area_total_itens itens) C L
            placas.length, (placas.length : ℕ∞))
        else melhor) := by
  rw [resolver_go_passo itens C L alphas shuffle rng restantes it k melhor
    placas kf htr]
  have hif : atualizar_melhor melhor placas
      (aproveitamentoDe (area_total_itens itens) C L placas.length) =
      if aceita melhor.2.1 melhor.2.2
          (aproveitamentoDe (area_total_itens itens) C L placas.length)
          placas.length then
        (some placas, aproveitamentoDe (area_total_itens itens) C L
          placas.length, (placas.length : ℕ∞))
      else melhor := by
    unfold atualizar_melhor
    exact if_congr (by unfold aceita; exact Iff.rfl) rfl rfl
  rw [hif]

/-- Witness for C6 on a concrete instance. -/
theorem C6_regra_aceitacao_witness :
    gerar_placas ((fun _ l => l : ℕ → List Item → List Item) 0 [])
      (demandaInicial []) 3 3 ((fun _ => 1 : ℕ → ℚ) 0) (fun _ => 0) 0 =
      Except.ok ([], 0) ∧
    resolver_go [] 3 3 (fun _ => 1) (fun _ l => l) (fun _ => 0) 1 0 0
      (none, 0, ⊤) =
      resolver_go [] 3 3 (fun _ => 1) (fun _ l => l) (fun _ => 0) 0 1 0
        (if aceita 0 ⊤ (aproveitamentoDe (area_total_itens []) 3 3
            (List.length ([] : List Padrao))) (List.length ([] : List Padrao))
          then (some [], aproveitamentoDe (area_total_itens []) 3 3
            (List.length ([] : List Padrao)),
            ((List.length ([] : List Padrao) : ℕ) : ℕ∞))
          else (none, 0, ⊤)) :=
  ⟨by decide,
    C6_regra_aceitacao [] 3 3 (fun _ => 1) (fun _ l => l) (fun _ => 0) 0 0 0
      (none, 0, ⊤) [] 0 (by decide)⟩

/-- C7, counterexample: the claim demands an immediate InvalidParameters
error, but with `max_iter = 0` (≤ 0, invalid) and `alpha = 5` (outside
`[0, 1]`) the call returns `(None, 0.0)` normally and raises nothing. -/
theorem C7_contraexemplo :
    ((0 : ℤ) ≤ 0) ∧ ¬ ((5 : ℚ) ≤ 1) ∧
    resolver_pcebg [(⟨1, 2, 2, 1⟩ : Item)] 10 10 0 (fun _ => 5) (fun _ l => l)
      (fun _ => 0) = Except.ok (none, 0) := by
  refine ⟨by decide, by norm_num, by decide⟩

/-- C7, amended: no parameter validation is performed.  With `max_iter ≤ 0`
the loop body never runs and the call returns `(None, 0.0)` without error,
for every alpha configuration, valid or not. -/
theorem C7_amended (itens : List Item) (C L : ℕ) (max_iter : ℤ)
    (alphas : ℕ → ℚ) (shuffle : ℕ → List Item → List Item) (rng : ℕ → ℕ)
    (h : max_iter ≤ 0) :
    resolver_pcebg itens C L max_iter alphas shuffle rng =
      Except.ok (none, 0) := by
  unfold resolver_pcebg
  have hz : max_iter.toNat = 0 := by omega
  rw [hz, resolver_go_zero]
  rfl

/-- Witness for the amended C7. -/
theorem C7_amended_witness :
    ((-3 : ℤ) ≤ 0) ∧
    resolver_pcebg [(⟨1, 2, 2, 1⟩ : Item)] 10 10 (-3) (fun _ => 7)
      (fun _ l => l) (fun _ => 0) = Except.ok (none, 0) :=
  ⟨by decide,
    C7_amended [⟨1, 2, 2, 1⟩] 10 10 (-3) (fun _ => 7) (fun _ l => l)
      (fun _ => 0) (by decide)⟩

/-- C8: the strip builder never emits a placement of quantity zero; with no
viable item it returns immediately with the state unchanged; and both the
strip-builder loop and the plate-builder loop reach their own exit
conditions within the modelled fuel budget (extra fuel never changes the
result), so construction never stalls. -/
theorem C8_terminacao (itens : List Item) (dem : Demanda) (C alt : ℕ)
    (alpha : ℚ) (rng : ℕ → ℕ) (k : ℕ) :
    (∀ t ∈ (criar_faixa itens dem C alt alpha rng k).1, 1 ≤ t.2.1) ∧
    (viaveis itens dem C 0 alt = [] →
      criar_faixa itens dem C alt alpha rng k = ([], dem, k)) ∧
    (∀ extra : ℕ, criar_faixa_go itens C alt alpha rng (C + extra) dem k 0 =
      criar_faixa itens dem C alt alpha rng k) ∧
    (∀ (L y extra : ℕ),
      gerar_padrao_go itens C L alpha rng (demSum itens dem + extra) dem k y =
        gerar_padrao_go itens C L alpha rng (demSum itens dem) dem k y) := by
  refine ⟨?_, ?_, ?_, ?_⟩
  · intro t ht
    exact (criar_faixa_runs itens dem C alt alpha rng k t ht).2.1
  · intro hv
    unfold criar_faixa
    cases hC : C with
    | zero => exact criar_faixa_go_nlt itens 0 alt alpha rng 0 dem k 0 (by omega)
    | succ f =>
      exact criar_faixa_go_nil itens (f + 1) alt alpha rng f dem k 0 (by omega)
        (hC ▸ hv)
  · intro extra
    exact cf_fuel_estavel itens C alt alpha rng C dem k 0 (by omega) extra
  · intro L y extra
    exact gp_fuel_estavel itens C L alpha rng (demSum itens dem) dem k y le_rfl
      extra

/-- Witness for C8 on a concrete instance. -/
theorem C8_terminacao_witness :
    (∀ t ∈ (criar_faixa [(⟨1, 2, 2, 1⟩ : Item)]
      (demandaInicial [(⟨1, 2, 2, 1⟩ : Item)]) 4 4 1 (fun _ => 0) 0).1,
      1 ≤ t.2.1) ∧
    (criar_faixa [(⟨1, 2, 2, 1⟩ : Item)] (fun _ => 0) 4 4 1 (fun _ => 0) 0 =
      ([], (fun _ => 0 : Demanda), 0)) ∧
    criar_faixa_go [(⟨1, 2, 2, 1⟩ : Item)] 4 4 1 (fun _ => 0) (4 + 3)
      (demandaInicial [(⟨1, 2, 2, 1⟩ : Item)]) 0 0 =
      criar_faixa [(⟨1, 2, 2, 1⟩ : Item)]
        (demandaInicial [(⟨1, 2, 2, 1⟩ : Item)]) 4 4 1 (fun _ => 0) 0 :=
  ⟨(C8_terminacao [⟨1, 2, 2, 1⟩] (demandaInicial [⟨1, 2, 2, 1⟩]) 4 4 1
      (fun _ => 0) 0).1,
    (C8_terminacao [⟨1, 2, 2, 1⟩] (fun _ => 0) 4 4 1 (fun _ => 0) 0).2.1
      (by decide),
    (C8_terminacao [⟨1, 2, 2, 1⟩] (demandaInicial [⟨1, 2, 2, 1⟩]) 4 4 1
      (fun _ => 0) 0).2.2.1 3⟩

/-- C9: for the Solution kept as best, the reported utilization equals (and
is therefore within floating tolerance of) the utilization recomputed
independently from the returned plates. -/
theorem C9_aproveitamento_recalculado (itens : List Item) (C L : ℕ)
    (max_iter : ℤ) (alphas : ℕ → ℚ) (shuffle : ℕ → List Item → List Item)
    (rng : ℕ → ℕ) (hnd : (itens.map Item.id).Nodup)
    (hsh : ∀ n, (shuffle n itens).Perm itens)
    (placas : List Padrao) (u : ℚ)
    (h : resolver_pcebg itens C L max_iter alphas shuffle rng =
      Except.ok (some placas, u)) :
    u = aproveitamentoRecalculado C L placas ∧
      isclose u (aproveitamentoRecalculado C L placas) := by
  have heq : u = aproveitamentoRecalculado C L placas := by
    refine resolver_ok_inv itens C L max_iter alphas shuffle rng
      (fun pl a => a = aproveitamentoRecalculado C L pl) ?_ placas u h
    intro it k placas0 kf htr
    exact trial_util itens (shuffle it itens) C L (alphas it) rng (hsh it) hnd
      placas0 k kf htr
  exact ⟨heq, heq ▸ isclose_self _⟩

/-- Witness for C9 on a concrete instance. -/
theorem C9_aproveitamento_recalculado_witness :
    resolver_pcebg [(⟨1, 2, 2, 1⟩ : Item)] 2 2 1 (fun _ => 1) (fun _ l => l)
      (fun _ => 0) = Except.ok (some [[⟨⟨1, 2, 2, 1⟩, 1, 0, 0⟩]], 1) ∧
    (1 : ℚ) = aproveitamentoRecalculado 2 2 [[⟨⟨1, 2, 2, 1⟩, 1, 0, 0⟩]] ∧
      isclose 1 (aproveitamentoRecalculado 2 2 [[⟨⟨1, 2, 2, 1⟩, 1, 0, 0⟩]]) :=
  ⟨by decide,
    C9_aproveitamento_recalculado [⟨1, 2, 2, 1⟩] 2 2 1 (fun _ => 1)
      (fun _ l => l) (fun _ => 0) (by decide) (fun _ => List.Perm.refl _)
      [[⟨⟨1, 2, 2, 1⟩, 1, 0, 0⟩]] 1 (by decide)⟩

/-- C10: when every item's demand is 0 the driver returns the empty plate
list with utilization 0 — the guarded utilization computation never divides
by zero. -/
theorem C10_demanda_toda_zero (itens : List Item) (C L : ℕ) (max_iter : ℤ)
    (alphas : ℕ → ℚ) (shuffle : ℕ → List Item → List Item) (rng : ℕ → ℕ)
    (hz : ∀ i ∈ itens, i.d = 0) (hmi : 1 ≤ max_iter) :
    resolver_pcebg itens C L max_iter alphas shuffle rng =
      Except.ok (some [], 0) := by
  have htd : ∀ l : List Item, ¬ temDemanda l (demandaInicial itens) = true := by
    intro l h
    obtain ⟨i, _, hlt⟩ := (temDemanda_iff _ _).mp h
    rw [demandaInicial_zero itens hz i.id] at hlt
    omega
  have htr : ∀ it k, gerar_placas (shuffle it itens) (demandaInicial itens) C L
      (alphas it) rng k = Except.ok ([], k) := by
    intro it k
    unfold gerar_placas
    exact gerar_placas_go_sem _ C L _ rng _ _ k [] (htd _)
  have haprov : aproveitamentoDe (area_total_itens itens) C L
      (List.length ([] : List Padrao)) = 0 := by
    simp only [List.length_nil]
    exact aproveitamentoDe_trivial _ C L
  have hloop : ∀ (r it k : ℕ),
      resolver_go itens C L alphas shuffle rng r it k
        (some [], 0, (0 : ℕ∞)) = Except.ok (some [], 0, (0 : ℕ∞)) := by
    intro r
    induction r with
    | zero =>
      intro it k
      exact resolver_go_zero itens C L alphas shuffle rng it k _
    | succ r ih =>
      intro it k
      rw [resolver_go_passo itens C L alphas shuffle rng r it k _ [] k (htr it k),
        haprov,
        show atualizar_melhor (some [], 0, (0 : ℕ∞)) [] 0 =
          (some [], 0, (0 : ℕ∞)) from by decide]
      exact ih (it + 1) k
  unfold resolver_pcebg
  obtain ⟨r, hr⟩ : ∃ r, max_iter.toNat = r + 1 :=
    ⟨max_iter.toNat - 1, by omega⟩
  rw [hr, resolver_go_passo itens C L alphas shuffle rng r 0 0 _ [] 0 (htr 0 0),
    haprov,
    show atualizar_melhor (none, 0, ⊤) [] 0 = (some [], 0, (0 : ℕ∞)) from by
      decide,
    hloop r 1 0]
  rfl

/-- Witness for C10. -/
theorem C10_demanda_toda_zero_witness :
    (∀ i ∈ [(⟨1, 2, 2, 0⟩ : Item), ⟨2, 3, 1, 0⟩], i.d = 0) ∧
    resolver_pcebg [(⟨1, 2, 2, 0⟩ : Item), ⟨2, 3, 1, 0⟩] 10 10 3 (fun _ => 1)
      (fun _ l => l) (fun _ => 0) = Except.ok (some [], 0) :=
  ⟨by decide,
    C10_demanda_toda_zero [⟨1, 2, 2, 0⟩, ⟨2, 3, 1, 0⟩] 10 10 3 (fun _ => 1)
      (fun _ l => l) (fun _ => 0) (by decide) (by decide)⟩

/-! ## Step-composition lemmas used for concrete executions -/

theorem cf_um_passo (itens : List Item) (C alt : ℕ) (alpha : ℚ) (rng : ℕ → ℕ)
    (fuel : ℕ) (dem : Demanda) (k x : ℕ) (item : Item) (faixa : Faixa)
    (demF : Demanda) (kF : ℕ) (hx : x < C)
    (hv : ¬ viaveis itens dem C x alt = [])
    (he : escolher (lrc (viaveis itens dem C x alt) alpha) (rng k) = some item)
    (hq : ¬ min (dem item.id) ((C - x) / item.c) = 0)
    (hrec : criar_faixa_go itens C alt alpha rng fuel
      (updDemanda dem item.id
        (dem item.id - min (dem item.id) ((C - x) / item.c)))
      (k + 1) (x + min (dem item.id) ((C - x) / item.c) * item.c) =
      (faixa, demF, kF)) :
    criar_faixa_go itens C alt alpha rng (fuel + 1) dem k x =
      ((item, min (dem item.id) ((C - x) / item.c), x) :: faixa, demF, kF) := by
  rw [criar_faixa_go_passo itens C alt alpha rng fuel dem k x hx hv he hq, hrec]

theorem gp_um_passo (itens : List Item) (C L : ℕ) (alpha : ℚ) (rng : ℕ → ℕ)
    (fuel : ℕ) (dem : Demanda) (k y : ℕ) (faixa : Faixa) (dem' : Demanda)
    (k' : ℕ) (rest : Padrao) (demF : Demanda) (kF : ℕ)
    (h : y < L ∧ temDemanda itens dem = true)
    (hfaixa : criar_faixa itens dem C (L - y) alpha rng k = (faixa, dem', k'))
    (hne : ¬ faixa = [])
    (hrec : gerar_padrao_go itens C L alpha rng fuel dem' k'
      (y + alturaFaixa faixa) = (rest, demF, kF)) :
    gerar_padrao_go itens C L alpha rng (fuel + 1) dem k y =
      (faixa.map (fun t => ⟨t.1, t.2.1, t.2.2, y⟩) ++ rest, demF, kF) := by
  rw [gerar_padrao_go_passo itens C L alpha rng fuel dem k y h
    (by rw [hfaixa]; exact hne), hfaixa]
  dsimp only
  rw [hrec]

theorem pl_um_passo (itens : List Item) (C L : ℕ) (alpha : ℚ) (rng : ℕ → ℕ)
    (fuel : ℕ) (dem : Demanda) (k : ℕ) (placas : List Padrao) (pad : Padrao)
    (dem' : Demanda) (k' : ℕ) (r : Except Unit (List Padrao × ℕ))
    (h : temDemanda itens dem = true)
    (hpad : gerar_padrao itens dem C L alpha rng k = (pad, dem', k'))
    (hne : ¬ pad = [])
    (hrec : gerar_placas_go itens C L alpha rng fuel dem' k'
      (placas ++ [pad]) = r) :
    gerar_placas_go itens C L alpha rng (fuel + 1) dem k placas = r := by
  rw [gerar_placas_go_passo itens C L alpha rng fuel dem k placas h
    (by rw [hpad]; exact hne), hpad]
  exact hrec

theorem escolher_singleton (i : Item) (r : ℕ) : escolher [i] r = some i := by
  unfold escolher
  simp [Nat.mod_one]

theorem perm_par {a b : Item} {l : List Item} (h : l.Perm [a, b]) :
    l = [a, b] ∨ l = [b, a] := by
  have hlen : l.length = 2 := by rw [h.length_eq]; rfl
  match l, hlen, h with
  | [x, y], _, h =>
    have hx : x ∈ [a, b] := h.mem_iff.mp (List.mem_cons_self x [y])
    rcases List.mem_cons.mp hx with rfl | hx
    · left
      have hy : [y] = [b] := List.perm_singleton.mp h.cons_inv
      rw [List.cons.injEq] at hy
      rw [hy.1]
    · have hxb : x = b := by simpa using hx
      subst hxb
      right
      have h2 : List.Perm [x, y] [x, a] :=
        h.trans (List.Perm.swap x a [])
      have hy : [y] = [a] := List.perm_singleton.mp h2.cons_inv
      rw [List.cons.injEq] at hy
      rw [hy.1]

/-! ## The end-to-end scenario of claim C5 -/

def itemA : Item := ⟨1, 10, 5, 2⟩

def itemB : Item := ⟨2, 5, 5, 4⟩

def d0 : Demanda := demandaInicial [itemA, itemB]

def d1 : Demanda := updDemanda d0 1 (d0 1 - 1)

def d2 : Demanda := updDemanda d1 1 (d1 1 - 1)

def d3 : Demanda := updDemanda d2 2 (d2 2 - 2)

def d4 : Demanda := updDemanda d3 2 (d3 2 - 2)

def P1 : Padrao := [⟨itemA, 1, 0, 0⟩, ⟨itemA, 1, 0, 5⟩]

def P2 : Padrao := [⟨itemB, 2, 0, 0⟩, ⟨itemB, 2, 0, 5⟩]

theorem lrcAB (alpha : ℚ) (h1 : 4 / 5 ≤ alpha) (h2 : alpha ≤ 1) :
    lrc [itemA, itemB] alpha = [itemA] := by
  have hA : naLRC alpha (maxArea [itemA, itemB]) itemA.area := by
    have hm : maxArea [itemA, itemB] = 50 := by decide
    have ha : itemA.area = 50 := by decide
    rw [naLRC, hm, ha]
    push_cast
    linarith
  have hB : ¬ naLRC alpha (maxArea [itemA, itemB]) itemB.area := by
    have hm : maxArea [itemA, itemB] = 50 := by decide
    have hb : itemB.area = 25 := by decide
    rw [naLRC, hm, hb]
    push_cast
    intro hcon
    linarith
  unfold lrc
  simp [List.filter_cons, List.filter_nil, decide_eq_true hA,
    decide_eq_false hB]

theorem lrcBA (alpha : ℚ) (h1 : 4 / 5 ≤ alpha) (h2 : alpha ≤ 1) :
    lrc [itemB, itemA] alpha = [itemA] := by
  have hA : naLRC alpha (maxArea [itemB, itemA]) itemA.area := by
    have hm : maxArea [itemB, itemA] = 50 := by decide
    have ha : itemA.area = 50 := by decide
    rw [naLRC, hm, ha]
    push_cast
    linarith
  have hB : ¬ naLRC alpha (maxArea [itemB, itemA]) itemB.area := by
    have hm : maxArea [itemB, itemA] = 50 := by decide
    have hb : itemB.area = 25 := by decide
    rw [naLRC, hm, hb]
    push_cast
    intro hcon
    linarith
  unfold lrc
  simp [List.filter_cons, List.filter_nil, decide_eq_true hA,
    decide_eq_false hB]

theorem lrcB (alpha : ℚ) (h2 : alpha ≤ 1) : lrc [itemB] alpha = [itemB] := by
  have hB : naLRC alpha (maxArea [itemB]) itemB.area := by
    have hm : maxArea [itemB] = 25 := by decide
    have hb : itemB.area = 25 := by decide
    rw [naLRC, hm, hb]
    push_cast
    linarith
  unfold lrc
  simp [List.filter_cons, List.filter_nil, decide_eq_true hB]

theorem pa1 (l : List Item) (hl : l = [itemA, itemB] ∨ l = [itemB, itemA])
    (alpha : ℚ) (h1 : 4 / 5 ≤ alpha) (h2 : alpha ≤ 1) (rng : ℕ → ℕ) (k : ℕ) :
    gerar_padrao l d0 10 10 alpha rng k = (P1, d2, k + 2) := by
  have hs1 : criar_faixa l d0 10 10 alpha rng k = ([(itemA, 1, 0)], d1, k + 1) := by
    rcases hl with rfl | rfl
    · have hv : viaveis [itemA, itemB] d0 10 0 10 = [itemA, itemB] := by decide
      have he : escolher (lrc (viaveis [itemA, itemB] d0 10 0 10) alpha)
          (rng k) = some itemA := by
        rw [hv, lrcAB alpha h1 h2]
        exact escolher_singleton itemA (rng k)
      show criar_faixa_go [itemA, itemB] 10 10 alpha rng 10 d0 k 0 = _
      exact cf_um_passo [itemA, itemB] 10 10 alpha rng 9 d0 k 0 itemA [] d1
        (k + 1) (by decide) (by decide) he (by decide)
        (criar_faixa_go_nlt [itemA, itemB] 10 10 alpha rng 9 d1 (k + 1) 10
          (by decide))
    · have hv : viaveis [itemB, itemA] d0 10 0 10 = [itemB, itemA] := by decide
      have he : escolher (lrc (viaveis [itemB, itemA] d0 10 0 10) alpha)
          (rng k) = some itemA := by
        rw [hv, lrcBA alpha h1 h2]
        exact escolher_singleton itemA (rng k)
      show criar_faixa_go [itemB, itemA] 10 10 alpha rng 10 d0 k 0 = _
      exact cf_um_passo [itemB, itemA] 10 10 alpha rng 9 d0 k 0 itemA [] d1
        (k + 1) (by decide) (by decide) he (by decide)
        (criar_faixa_go_nlt [itemB, itemA] 10 10 alpha rng 9 d1 (k + 1) 10
          (by decide))
  have hs2 : criar_faixa l d1 10 5 alpha rng (k + 1) =
      ([(itemA, 1, 0)], d2, k + 2) := by
    rcases hl with rfl | rfl
    · have hv : viaveis [itemA, itemB] d1 10 0 5 = [itemA, itemB] := by decide
      have he : escolher (lrc (viaveis [itemA, itemB] d1 10 0 5) alpha)
          (rng (k + 1)) = some itemA := by
        rw [hv, lrcAB alpha h1 h2]
        exact escolher_singleton itemA (rng (k + 1))
      show criar_faixa_go [itemA, itemB] 10 5 alpha rng 10 d1 (k + 1) 0 = _
      exact cf_um_passo [itemA, itemB] 10 5 alpha rng 9 d1 (k + 1) 0 itemA []
        d2 (k + 2) (by decide) (by decide) he (by decide)
        (criar_faixa_go_nlt [itemA, itemB] 10 5 alpha rng 9 d2 (k + 2) 10
          (by decide))
    · have hv : viaveis [itemB, itemA] d1 10 0 5 = [itemB, itemA] := by decide
      have he : escolher (lrc (viaveis [itemB, itemA] d1 10 0 5) alpha)
          (rng (k + 1)) = some itemA := by
        rw [hv, lrcBA alpha h1 h2]
        exact escolher_singleton itemA (rng (k + 1))
      show criar_faixa_go [itemB, itemA] 10 5 alpha rng 10 d1 (k + 1) 0 = _
      exact cf_um_passo [itemB, itemA] 10 5 alpha rng 9 d1 (k + 1) 0 itemA []
        d2 (k + 2) (by decide) (by decide) he (by decide)
        (criar_faixa_go_nlt [itemB, itemA] 10 5 alpha rng 9 d2 (k + 2) 10
          (by decide))
  have htd0 : temDemanda l d0 = true := by
    rcases hl with rfl | rfl <;> decide
  have htd1 : temDemanda l d1 = true := by
    rcases hl with rfl | rfl <;> decide
  have hg2 : gerar_padrao_go l 10 10 alpha rng 5 d1 (k + 1) 5 =
      ([⟨itemA, 1, 0, 5⟩], d2, k + 2) := by
    refine gp_um_passo l 10 10 alpha rng 4 d1 (k + 1) 5 [(itemA, 1, 0)] d2
      (k + 2) [] d2 (k + 2) ⟨by decide, htd1⟩ hs2 (by decide) ?_
    exact gerar_padrao_go_para l 10 10 alpha rng 4 d2 (k + 2) 10
      (by intro hcon; exact absurd hcon.1 (by decide))
  have hg1 : gerar_padrao_go l 10 10 alpha rng 6 d0 k 0 = (P1, d2, k + 2) := by
    refine gp_um_passo l 10 10 alpha rng 5 d0 k 0 [(itemA, 1, 0)] d1 (k + 1)
      [⟨itemA, 1, 0, 5⟩] d2 (k + 2) ⟨by decide, htd0⟩ hs1 (by decide) ?_
    exact hg2
  have hds : demSum l d0 = 6 := by
    rcases hl with rfl | rfl <;> decide
  show gerar_padrao_go l 10 10 alpha rng (demSum l d0) d0 k 0 = _
  rw [hds]
  exact hg1

theorem pa2 (l : List Item) (hl : l = [itemA, itemB] ∨ l = [itemB, itemA])
    (alpha : ℚ) (h2 : alpha ≤ 1) (rng : ℕ → ℕ) (k : ℕ) :
    gerar_padrao l d2 10 10 alpha rng k = (P2, d4, k + 2) := by
  have hs3 : criar_faixa l d2 10 10 alpha rng k = ([(itemB, 2, 0)], d3, k + 1) := by
    rcases hl with rfl | rfl
    · have hv : viaveis [itemA, itemB] d2 10 0 10 = [itemB] := by decide
      have he : escolher (lrc (viaveis [itemA, itemB] d2 10 0 10) alpha)
          (rng k) = some itemB := by
        rw [hv, lrcB alpha h2]
        exact escolher_singleton itemB (rng k)
      show criar_faixa_go [itemA, itemB] 10 10 alpha rng 10 d2 k 0 = _
      exact cf_um_passo [itemA, itemB] 10 10 alpha rng 9 d2 k 0 itemB [] d3
        (k + 1) (by decide) (by decide) he (by decide)
        (criar_faixa_go_nlt [itemA, itemB] 10 10 alpha rng 9 d3 (k + 1) 10
          (by decide))
    · have hv : viaveis [itemB, itemA] d2 10 0 10 = [itemB] := by decide
      have he : escolher (lrc (viaveis [itemB, itemA] d2 10 0 10) alpha)
          (rng k) = some itemB := by
        rw [hv, lrcB alpha h2]
        exact escolher_singleton itemB (rng k)
      show criar_faixa_go [itemB, itemA] 10 10 alpha rng 10 d2 k 0 = _
      exact cf_um_passo [itemB, itemA] 10 10 alpha rng 9 d2 k 0 itemB [] d3
        (k + 1) (by decide) (by decide) he (by decide)
        (criar_faixa_go_nlt [itemB, itemA] 10 10 alpha rng 9 d3 (k + 1) 10
          (by decide))
  have hs4 : criar_faixa l d3 10 5 alpha rng (k + 1) =
      ([(itemB, 2, 0)], d4, k + 2) := by
    rcases hl with rfl | rfl
    · have hv : viaveis [itemA, itemB] d3 10 0 5 = [itemB] := by decide
      have he : escolher (lrc (viaveis [itemA, itemB] d3 10 0 5) alpha)
          (rng (k + 1)) = some itemB := by
        rw [hv, lrcB alpha h2]
        exact escolher_singleton itemB (rng (k + 1))
      show criar_faixa_go [itemA, itemB] 10 5 alpha rng 10 d3 (k + 1) 0 = _
      exact cf_um_passo [itemA, itemB] 10 5 alpha rng 9 d3 (k + 1) 0 itemB []
        d4 (k + 2) (by decide) (by decide) he (by decide)
        (criar_faixa_go_nlt [itemA, itemB] 10 5 alpha rng 9 d4 (k + 2) 10
          (by decide))
    · have hv : viaveis [itemB, itemA] d3 10 0 5 = [itemB] := by decide
      have he : escolher (lrc (viaveis [itemB, itemA] d3 10 0 5) alpha)
          (rng (k + 1)) = some itemB := by
        rw [hv, lrcB alpha h2]
        exact escolher_singleton itemB (rng (k + 1))
      show criar_faixa_go [itemB, itemA] 10 5 alpha rng 10 d3 (k + 1) 0 = _
      exact cf_um_passo [itemB, itemA] 10 5 alpha rng 9 d3 (k + 1) 0 itemB []
        d4 (k + 2) (by decide) (by decide) he (by decide)
        (criar_faixa_go_nlt [itemB, itemA] 10 5 alpha rng 9 d4 (k + 2) 10
          (by decide))
  have htd2 : temDemanda l d2 = true := by
    rcases hl with rfl | rfl <;> decide
  have htd3 : temDemanda l d3 = true := by
    rcases hl with rfl | rfl <;> decide
  have hg4 : gerar_padrao_go l 10 10 alpha rng 3 d3 (k + 1) 5 =
      ([⟨itemB, 2, 0, 5⟩], d4, k + 2) := by
    refine gp_um_passo l 10 10 alpha rng 2 d3 (k + 1) 5 [(itemB, 2, 0)] d4
      (k + 2) [] d4 (k + 2) ⟨by decide, htd3⟩ hs4 (by decide) ?_
    exact gerar_padrao_go_para l 10 10 alpha rng 2 d4 (k + 2) 10
      (by intro hcon; exact absurd hcon.1 (by decide))
  have hg3 : gerar_padrao_go l 10 10 alpha rng 4 d2 k 0 = (P2, d4, k + 2) := by
    refine gp_um_passo l 10 10 alpha rng 3 d2 k 0 [(itemB, 2, 0)] d3 (k + 1)
      [⟨itemB, 2, 0, 5⟩] d4 (k + 2) ⟨by decide, htd2⟩ hs3 (by decide) ?_
    exact hg4
  have hds : demSum l d2 = 4 := by
    rcases hl with rfl | rfl <;> decide
  show gerar_padrao_go l 10 10 alpha rng (demSum l d2) d2 k 0 = _
  rw [hds]
  exact hg3

theorem C5_trial (l : List Item)
    (hl : l = [itemA, itemB] ∨ l = [itemB, itemA]) (alpha : ℚ)
    (h1 : 4 / 5 ≤ alpha) (h2 : alpha ≤ 1) (rng : ℕ → ℕ) (k : ℕ) :
    gerar_placas l d0 10 10 alpha rng k = Except.ok ([P1, P2], k + 4) := by
  have htd0 : temDemanda l d0 = true := by
    rcases hl with rfl | rfl <;> decide
  have htd2 : temDemanda l d2 = true := by
    rcases hl with rfl | rfl <;> decide
  have htd4 : ¬ temDemanda l d4 = true := by
    rcases hl with rfl | rfl <;> decide
  have h3 : gerar_placas_go l 10 10 alpha rng 4 d4 (k + 4) [P1, P2] =
      Except.ok ([P1, P2], k + 4) :=
    gerar_placas_go_sem l 10 10 alpha rng 4 d4 (k + 4) [P1, P2] htd4
  have h2' : gerar_placas_go l 10 10 alpha rng 5 d2 (k + 2) [P1] =
      Except.ok ([P1, P2], k + 4) := by
    refine pl_um_passo l 10 10 alpha rng 4 d2 (k + 2) [P1] P2 d4 (k + 4) _
      htd2 (pa2 l hl alpha h2 rng (k + 2)) (by decide) ?_
    exact h3
  have hds : demSum l d0 = 6 := by
    rcases hl with rfl | rfl <;> decide
  show gerar_placas_go l 10 10 alpha rng (demSum l d0) d0 k [] = _
  rw [hds]
  refine pl_um_passo l 10 10 alpha rng 5 d0 k [] P1 d2 (k + 2) _ htd0
    (pa1 l hl alpha h1 h2 rng k) (by decide) ?_
  exact h2'

/-- C5: on the instance C = L = 10 with items A (10 × 5, demand 2) and
B (5 × 5, demand 4), every run with `max_iter ≥ 20`, every sampled alpha in
`[0.8, 1]` and any random sequence returns a Solution with exactly 2 plates
and utilization exactly 1. -/
theorem C5_cenario (max_iter : ℤ) (alphas : ℕ → ℚ)
    (shuffle : ℕ → List Item → List Item) (rng : ℕ → ℕ)
    (hmi : 20 ≤ max_iter)
    (ha : ∀ n, 4 / 5 ≤ alphas n ∧ alphas n ≤ 1)
    (hsh : ∀ n, (shuffle n [itemA, itemB]).Perm [itemA, itemB]) :
    ∃ placas, resolver_pcebg [itemA, itemB] 10 10 max_iter alphas shuffle rng =
      Except.ok (some placas, 1) ∧ placas.length = 2 := by
  refine ⟨[P1, P2], ?_, rfl⟩
  have htrial : ∀ it k, gerar_placas (shuffle it [itemA, itemB])
      (demandaInicial [itemA, itemB]) 10 10 (alphas it) rng k =
      Except.ok ([P1, P2], k + 4) := by
    intro it k
    exact C5_trial (shuffle it [itemA, itemB]) (perm_par (hsh it)) (alphas it)
      (ha it).1 (ha it).2 rng k
  have haprov : aproveitamentoDe (area_total_itens [itemA, itemB]) 10 10
      (List.length [P1, P2]) = 1 := by decide
  have hloop : ∀ (r it k : ℕ),
      resolver_go [itemA, itemB] 10 10 alphas shuffle rng r it k
        (some [P1, P2], 1, (2 : ℕ∞)) =
      Except.ok (some [P1, P2], 1, (2 : ℕ∞)) := by
    intro r
    induction r with
    | zero =>
      intro it k
      exact resolver_go_zero [itemA, itemB] 10 10 alphas shuffle rng it k _
    | succ r ih =>
      intro it k
      rw [resolver_go_passo [itemA, itemB] 10 10 alphas shuffle rng r it k _
          [P1, P2] (k + 4) (htrial it k),
        haprov,
        show atualizar_melhor (some [P1, P2], 1, (2 : ℕ∞)) [P1, P2] 1 =
          (some [P1, P2], 1, (2 : ℕ∞)) from by decide]
      exact ih (it + 1) (k + 4)
  unfold resolver_pcebg
  obtain ⟨r, hr⟩ : ∃ r, max_iter.toNat = r + 1 :=
    ⟨max_iter.toNat - 1, by omega⟩
  rw [hr,
    resolver_go_passo [itemA, itemB] 10 10 alphas shuffle rng r 0 0 _
      [P1, P2] 4 (htrial 0 0),
    haprov,
    show atualizar_melhor (none, 0, ⊤) [P1, P2] 1 =
      (some [P1, P2], 1, (2 : ℕ∞)) from by decide,
    hloop r 1 4]
  rfl

/-- Witness for C5 with `alpha_min = alpha_max = 0.8` (the sample is the
constant 4/5), the identity shuffle, the zero random stream and 20 trials. -/
theorem C5_cenario_witness :
    ((20 : ℤ) ≤ 20) ∧
    (∀ n : ℕ, 4 / 5 ≤ ((fun _ => Rat.divInt 4 5 : ℕ → ℚ) n) ∧
      ((fun _ => Rat.divInt 4 5 : ℕ → ℚ) n) ≤ 1) ∧
    ∃ placas, resolver_pcebg [itemA, itemB] 10 10 20 (fun _ => Rat.divInt 4 5)
      (fun _ l => l) (fun _ => 0) = Except.ok (some placas, 1) ∧
      placas.length = 2 :=
  ⟨by decide,
    fun _ => ⟨by rw [Rat.divInt_eq_div]; norm_num,
      by rw [Rat.divInt_eq_div]; norm_num⟩,
    C5_cenario 20 (fun _ => Rat.divInt 4 5) (fun _ l => l) (fun _ => 0)
      (by decide)
      (fun _ => ⟨by rw [Rat.divInt_eq_div]; norm_num,
        by rw [Rat.divInt_eq_div]; norm_num⟩)
      (fun _ => List.Perm.refl _)⟩

end PCEBG
